import Mathlib

/-!
# Arrow to DuckDB type mapping

A shallow embedding of `mapArrowType` from `lib/src/arrow_type_mapping.cc`
together with the properties its specification states about it.

The source function switches on `type.id()` and reads, depending on the kind,
the value type of a list, the fields of a struct / map / dictionary, or the
precision and scale of a decimal.  The embedding represents a descriptor as a
tagged tree carrying exactly those payloads, so the `switch` plus the
`dynamic_cast` of the source becomes one pattern match.
-/

namespace arrow

/-- The enumerators of `arrow::Type::type` that the `switch` of
`mapArrowType` names, in the order of the Arrow header. -/
inductive TypeId where
  | NA | BOOL
  | UINT8 | INT8 | UINT16 | INT16 | UINT32 | INT32 | UINT64 | INT64
  | HALF_FLOAT | FLOAT | DOUBLE
  | STRING | BINARY | FIXED_SIZE_BINARY
  | DATE32 | DATE64 | TIMESTAMP | TIME32 | TIME64
  | INTERVAL_MONTHS | INTERVAL_DAY_TIME
  | DECIMAL128 | DECIMAL256
  | LIST | STRUCT | SPARSE_UNION | DENSE_UNION | DICTIONARY | MAP | EXTENSION
  | FIXED_SIZE_LIST | DURATION | LARGE_STRING | LARGE_BINARY | LARGE_LIST
  | MAX_ID
  deriving DecidableEq, Repr

/-- A source type descriptor (`arrow::DataType`).  A field is a pair of its
name and its type, in the order `fields()` returns them.

* list kinds carry what `value_type()` returns (and the fixed length for
  `FIXED_SIZE_LIST`);
* `STRUCT`, `MAP`, `DICTIONARY` and the unions carry what `fields()` returns;
* decimals carry `precision()` and `scale()`;
* an extension type carries its name and its storage type. -/
inductive DataType where
  | NA | BOOL
  | UINT8 | INT8 | UINT16 | INT16 | UINT32 | INT32 | UINT64 | INT64
  | HALF_FLOAT | FLOAT | DOUBLE
  | STRING | BINARY
  | FIXED_SIZE_BINARY (byte_width : Int)
  | DATE32 | DATE64 | TIMESTAMP | TIME32 | TIME64
  | INTERVAL_MONTHS | INTERVAL_DAY_TIME
  | DECIMAL128 (precision scale : Int)
  | DECIMAL256 (precision scale : Int)
  | LIST (value_type : DataType)
  | STRUCT (fields : List (String × DataType))
  | SPARSE_UNION (fields : List (String × DataType))
  | DENSE_UNION (fields : List (String × DataType))
  | DICTIONARY (fields : List (String × DataType))
  | MAP (fields : List (String × DataType))
  | EXTENSION (extension_name : String) (storage_type : DataType)
  | FIXED_SIZE_LIST (value_type : DataType) (list_size : Int)
  | DURATION | LARGE_STRING | LARGE_BINARY
  | LARGE_LIST (value_type : DataType)
  | MAX_ID

/-- The kind tag of a descriptor: `type.id()`. -/
def DataType.id : DataType → TypeId
  | .NA => .NA
  | .BOOL => .BOOL
  | .UINT8 => .UINT8
  | .INT8 => .INT8
  | .UINT16 => .UINT16
  | .INT16 => .INT16
  | .UINT32 => .UINT32
  | .INT32 => .INT32
  | .UINT64 => .UINT64
  | .INT64 => .INT64
  | .HALF_FLOAT => .HALF_FLOAT
  | .FLOAT => .FLOAT
  | .DOUBLE => .DOUBLE
  | .STRING => .STRING
  | .BINARY => .BINARY
  | .FIXED_SIZE_BINARY _ => .FIXED_SIZE_BINARY
  | .DATE32 => .DATE32
  | .DATE64 => .DATE64
  | .TIMESTAMP => .TIMESTAMP
  | .TIME32 => .TIME32
  | .TIME64 => .TIME64
  | .INTERVAL_MONTHS => .INTERVAL_MONTHS
  | .INTERVAL_DAY_TIME => .INTERVAL_DAY_TIME
  | .DECIMAL128 _ _ => .DECIMAL128
  | .DECIMAL256 _ _ => .DECIMAL256
  | .LIST _ => .LIST
  | .STRUCT _ => .STRUCT
  | .SPARSE_UNION _ => .SPARSE_UNION
  | .DENSE_UNION _ => .DENSE_UNION
  | .DICTIONARY _ => .DICTIONARY
  | .MAP _ => .MAP
  | .EXTENSION _ _ => .EXTENSION
  | .FIXED_SIZE_LIST _ _ => .FIXED_SIZE_LIST
  | .DURATION => .DURATION
  | .LARGE_STRING => .LARGE_STRING
  | .LARGE_BINARY => .LARGE_BINARY
  | .LARGE_LIST _ => .LARGE_LIST
  | .MAX_ID => .MAX_ID

/-- The status codes of `arrow::Status` (the mapping only ever produces
`NotImplemented`). -/
inductive StatusCode where
  | OK | OutOfMemory | KeyError | TypeError | Invalid | CapacityError
  | IndexError | UnknownError | NotImplemented
  deriving DecidableEq, Repr

/-- An `arrow::Status`: a code and a message. -/
structure Status where
  code : StatusCode
  msg : String
  deriving DecidableEq, Repr

/-- The call `arrow::Status::NotImplemented(a, b)`: the message is the
concatenation of the arguments. -/
def Status.NotImplemented (a b : String) : Status :=
  { code := StatusCode.NotImplemented, msg := a ++ b }

/-- An `arrow::Result<T>`: either a value or a failed status. -/
abbrev Result (α : Type) : Type := Except Status α

end arrow

namespace duckdb

/-- The target type (`duckdb::LogicalType`), restricted to the constants and
constructors `mapArrowType` uses.  `child_list_t<LogicalType>` is a sequence
of (name, type) pairs. -/
inductive LogicalType where
  | INVALID | BOOLEAN
  | UTINYINT | TINYINT | USMALLINT | SMALLINT | UINTEGER | INTEGER | UBIGINT | BIGINT
  | FLOAT | DOUBLE | VARCHAR | BLOB | DATE | TIMESTAMP | TIME | INTERVAL
  | DECIMAL (width scale : Int)
  | LIST (child : LogicalType)
  | STRUCT (children : List (String × LogicalType))
  | MAP (children : List (String × LogicalType))

namespace web

open arrow

mutual
/-- The function `mapArrowType`.  `ToString` stands for
`arrow::DataType::ToString`, which belongs to the Arrow library.  Every
`ARROW_ASSIGN_OR_RAISE` is the match that returns the failed status at
once.  Every enumerator of `TypeId` has its `case`, and each `case` returns,
so the `return duckdb::LogicalType::INVALID` that follows the `switch` is
reached for none of them and has no equation of its own. -/
def mapArrowType (ToString : DataType → String) : DataType → Result LogicalType
  | .MAX_ID => .ok .INVALID
  | .NA => .ok .INVALID
  | .BOOL => .ok .BOOLEAN
  | .UINT8 => .ok .UTINYINT
  | .INT8 => .ok .TINYINT
  | .UINT16 => .ok .USMALLINT
  | .INT16 => .ok .SMALLINT
  | .UINT32 => .ok .UINTEGER
  | .INT32 => .ok .INTEGER
  | .UINT64 => .ok .UBIGINT
  | .INT64 => .ok .BIGINT
  | .HALF_FLOAT => .ok .FLOAT
  | .FLOAT => .ok .FLOAT
  | .DOUBLE => .ok .DOUBLE
  | .STRING => .ok .VARCHAR
  | .BINARY => .ok .BLOB
  | .FIXED_SIZE_BINARY _ => .ok .BLOB
  | .DATE32 => .ok .DATE
  | .DATE64 => .ok .DATE
  | .TIMESTAMP => .ok .TIMESTAMP
  | .TIME32 => .ok .TIMESTAMP
  | .TIME64 => .ok .TIMESTAMP
  | .INTERVAL_MONTHS => .ok .INTERVAL
  | .INTERVAL_DAY_TIME => .ok .INTERVAL
  | .DECIMAL128 precision scale => .ok (.DECIMAL precision scale)
  | .DECIMAL256 precision scale => .ok (.DECIMAL precision scale)
  | .LIST value_type =>
    match mapArrowType ToString value_type with
    | .error st => .error st
    | .ok inner => .ok (.LIST inner)
  | .STRUCT fields =>
    match mapFields ToString [] fields with
    | .error st => .error st
    | .ok children => .ok (.STRUCT children)
  | .DICTIONARY fields =>
    match mapFields ToString [] fields with
    | .error st => .error st
    | .ok children => .ok (.MAP children)
  | .MAP fields =>
    match mapFields ToString [] fields with
    | .error st => .error st
    | .ok children => .ok (.MAP children)
  | .FIXED_SIZE_LIST value_type _ =>
    match mapArrowType ToString value_type with
    | .error st => .error st
    | .ok inner => .ok (.LIST inner)
  | .DURATION => .ok .TIME
  | .LARGE_STRING => .ok .VARCHAR
  | .LARGE_BINARY => .ok .BLOB
  | .LARGE_LIST value_type =>
    match mapArrowType ToString value_type with
    | .error st => .error st
    | .ok inner => .ok (.LIST inner)
  | .EXTENSION n s =>
    .error (Status.NotImplemented "DuckDB type mapping for: " (ToString (.EXTENSION n s)))
  | .SPARSE_UNION fs =>
    .error (Status.NotImplemented "DuckDB type mapping for: " (ToString (.SPARSE_UNION fs)))
  | .DENSE_UNION fs =>
    .error (Status.NotImplemented "DuckDB type mapping for: " (ToString (.DENSE_UNION fs)))
/-- The loop `for (auto& field : type.fields())` that the `STRUCT`,
`DICTIONARY` and `MAP` cases share word for word: `children` is the vector
built so far, the list is the fields still to visit. -/
def mapFields (ToString : DataType → String) (children : List (String × LogicalType)) :
    List (String × DataType) → Result (List (String × LogicalType))
  | [] => .ok children
  | (name, type) :: rest =>
    match mapArrowType ToString type with
    | .error st => .error st
    | .ok t => mapFields ToString (children ++ [(name, t)]) rest
end


/-! ## Vocabulary of the claims -/

/-- The three kinds the mapping rejects. -/
def isUnsupported (d : DataType) : Bool :=
  decide (d.id = TypeId.EXTENSION ∨ d.id = TypeId.SPARSE_UNION ∨ d.id = TypeId.DENSE_UNION)

/-- The six kinds that are mapped through their children. -/
def isContainer (d : DataType) : Bool :=
  decide (d.id = TypeId.LIST ∨ d.id = TypeId.LARGE_LIST ∨ d.id = TypeId.FIXED_SIZE_LIST ∨
    d.id = TypeId.STRUCT ∨ d.id = TypeId.MAP ∨ d.id = TypeId.DICTIONARY)

mutual
/-- Every node of a descriptor, the descriptor itself first, then the nodes of
its children from left to right.  The fields of a union and the storage type
of an extension type are children too. -/
def descendants : DataType → List DataType
  | .LIST v => .LIST v :: descendants v
  | .LARGE_LIST v => .LARGE_LIST v :: descendants v
  | .FIXED_SIZE_LIST v n => .FIXED_SIZE_LIST v n :: descendants v
  | .STRUCT fs => .STRUCT fs :: descendantsOfFields fs
  | .MAP fs => .MAP fs :: descendantsOfFields fs
  | .DICTIONARY fs => .DICTIONARY fs :: descendantsOfFields fs
  | .SPARSE_UNION fs => .SPARSE_UNION fs :: descendantsOfFields fs
  | .DENSE_UNION fs => .DENSE_UNION fs :: descendantsOfFields fs
  | .EXTENSION n s => .EXTENSION n s :: descendants s
  | d => [d]
/-- The nodes of the types of a field sequence, from left to right. -/
def descendantsOfFields : List (String × DataType) → List DataType
  | [] => []
  | (_, t) :: rest => descendants t ++ descendantsOfFields rest
end

mutual
/-- The nodes of a descriptor that are reached from its root through list
value types and `STRUCT` / `MAP` / `DICTIONARY` field types only, the
descriptor itself first, then left to right.  Nothing below a union or an
extension type is listed. -/
def reachable : DataType → List DataType
  | .LIST v => .LIST v :: reachable v
  | .LARGE_LIST v => .LARGE_LIST v :: reachable v
  | .FIXED_SIZE_LIST v n => .FIXED_SIZE_LIST v n :: reachable v
  | .STRUCT fs => .STRUCT fs :: reachableOfFields fs
  | .MAP fs => .MAP fs :: reachableOfFields fs
  | .DICTIONARY fs => .DICTIONARY fs :: reachableOfFields fs
  | d => [d]
/-- The reachable nodes of the types of a field sequence, from left to
right. -/
def reachableOfFields : List (String × DataType) → List DataType
  | [] => []
  | (_, t) :: rest => reachable t ++ reachableOfFields rest
end

/-- The status `mapArrowType` builds for an unsupported descriptor `u`. -/
def unsupportedStatus (ToString : DataType → String) (u : DataType) : Status :=
  { code := StatusCode.NotImplemented, msg := "DuckDB type mapping for: " ++ ToString u }

/-- A field of the source and a field of the target correspond: same name,
and the target type is the successful image of the source type. -/
def FieldMapped (ToString : DataType → String) (f : String × DataType)
    (c : String × LogicalType) : Prop :=
  c.1 = f.1 ∧ mapArrowType ToString f.2 = .ok c.2

/-- A sample rendering, used where a result is evaluated on a concrete
descriptor: the lower-case name of the kind.  The theorems below hold for
every rendering. -/
def kindName (d : DataType) : String :=
  match d.id with
  | .NA => "na"
  | .BOOL => "bool"
  | .UINT8 => "uint8"
  | .INT8 => "int8"
  | .UINT16 => "uint16"
  | .INT16 => "int16"
  | .UINT32 => "uint32"
  | .INT32 => "int32"
  | .UINT64 => "uint64"
  | .INT64 => "int64"
  | .HALF_FLOAT => "half_float"
  | .FLOAT => "float"
  | .DOUBLE => "double"
  | .STRING => "string"
  | .BINARY => "binary"
  | .FIXED_SIZE_BINARY => "fixed_size_binary"
  | .DATE32 => "date32"
  | .DATE64 => "date64"
  | .TIMESTAMP => "timestamp"
  | .TIME32 => "time32"
  | .TIME64 => "time64"
  | .INTERVAL_MONTHS => "interval_months"
  | .INTERVAL_DAY_TIME => "interval_day_time"
  | .DECIMAL128 => "decimal128"
  | .DECIMAL256 => "decimal256"
  | .LIST => "list"
  | .STRUCT => "struct"
  | .SPARSE_UNION => "sparse_union"
  | .DENSE_UNION => "dense_union"
  | .DICTIONARY => "dictionary"
  | .MAP => "map"
  | .EXTENSION => "extension"
  | .FIXED_SIZE_LIST => "fixed_size_list"
  | .DURATION => "duration"
  | .LARGE_STRING => "large_string"
  | .LARGE_BINARY => "large_binary"
  | .LARGE_LIST => "large_list"
  | .MAX_ID => "max_id"

/-- The target field sequence `cs` is the image of the source field sequence
`fs`: same length, and at every index the same name and the successful image
of the field type. -/
def FieldsImage (ToString : DataType → String) (fs : List (String × DataType))
    (cs : List (String × LogicalType)) : Prop :=
  cs.length = fs.length ∧
    ∀ (i : Nat) (h1 : i < fs.length) (h2 : i < cs.length),
      (cs.get ⟨i, h2⟩).1 = (fs.get ⟨i, h1⟩).1 ∧
        mapArrowType ToString (fs.get ⟨i, h1⟩).2 = .ok (cs.get ⟨i, h2⟩).2

/-- What a result must be, given the first unsupported node met (if any):
the status of that node, or some success. -/
def DecidedBy {α : Type} (ts : DataType → String) (r : Result α) : Option DataType → Prop
  | some u => r = .error (unsupportedStatus ts u)
  | none => ∃ t, r = .ok t

/-- The eight integer kinds of the source. -/
def isInteger (d : DataType) : Bool :=
  decide (d.id = TypeId.INT8 ∨ d.id = TypeId.INT16 ∨ d.id = TypeId.INT32 ∨ d.id = TypeId.INT64 ∨
    d.id = TypeId.UINT8 ∨ d.id = TypeId.UINT16 ∨ d.id = TypeId.UINT32 ∨ d.id = TypeId.UINT64)

mutual
/-- The nesting depth of a source descriptor: a list kind is one more than its
value type, `STRUCT` / `MAP` / `DICTIONARY` are one more than the deepest of
their field types, every other kind is 0. -/
def depth : DataType → Nat
  | .LIST v => 1 + depth v
  | .LARGE_LIST v => 1 + depth v
  | .FIXED_SIZE_LIST v _ => 1 + depth v
  | .STRUCT fs => 1 + depthOfFields fs
  | .MAP fs => 1 + depthOfFields fs
  | .DICTIONARY fs => 1 + depthOfFields fs
  | _ => 0
/-- The largest nesting depth among the types of a field sequence (0 when
there is no field). -/
def depthOfFields : List (String × DataType) → Nat
  | [] => 0
  | (_, t) :: rest => max (depth t) (depthOfFields rest)
end

mutual
/-- The nesting depth of a target type: a list is one more than its child, a
struct or map one more than the deepest of its field types, every other type
is 0. -/
def logicalDepth : LogicalType → Nat
  | .LIST c => 1 + logicalDepth c
  | .STRUCT cs => 1 + logicalDepthOfChildren cs
  | .MAP cs => 1 + logicalDepthOfChildren cs
  | _ => 0
/-- The largest nesting depth among the types of a child list. -/
def logicalDepthOfChildren : List (String × LogicalType) → Nat
  | [] => 0
  | (_, t) :: rest => max (logicalDepth t) (logicalDepthOfChildren rest)
end

/-- The descriptor `LIST` applied `n` times to `d`. -/
def nestedList : Nat → DataType → DataType
  | 0, d => d
  | n + 1, d => .LIST (nestedList n d)

/-- The target type `LIST` applied `n` times to `t`. -/
def nestedLogicalList : Nat → LogicalType → LogicalType
  | 0, t => t
  | n + 1, t => .LIST (nestedLogicalList n t)

/-- The two sentinel kinds, `NA` and `MAX_ID`. -/
def isSentinel (d : DataType) : Bool :=
  decide (d.id = TypeId.NA ∨ d.id = TypeId.MAX_ID)

mutual
/-- Whether `INVALID` occurs in a target type: as the type itself, as a list
child, or as a struct / map field type, at any depth. -/
def containsInvalid : LogicalType → Bool
  | .INVALID => true
  | .LIST c => containsInvalid c
  | .STRUCT cs => childrenContainInvalid cs
  | .MAP cs => childrenContainInvalid cs
  | _ => false
/-- Whether `INVALID` occurs in one of the types of a child list. -/
def childrenContainInvalid : List (String × LogicalType) → Bool
  | [] => false
  | (_, t) :: rest => containsInvalid t || childrenContainInvalid rest
end

mutual
/-- The function `mapArrowType` with a bound on the depth of its nested calls:
`fuel` is the number of calls that may be open at a time, this one included,
and `none` means the bound was hit.  A kind whose `case` calls nothing returns
what `mapArrowType` returns. -/
def mapArrowTypeFuel (ToString : DataType → String) :
    Nat → DataType → Option (Result LogicalType)
  | 0, _ => none
  | fuel + 1, .LIST value_type =>
    match mapArrowTypeFuel ToString fuel value_type with
    | none => none
    | some (.error st) => some (.error st)
    | some (.ok inner) => some (.ok (.LIST inner))
  | fuel + 1, .STRUCT fields =>
    match mapFieldsFuel ToString fuel [] fields with
    | none => none
    | some (.error st) => some (.error st)
    | some (.ok children) => some (.ok (.STRUCT children))
  | fuel + 1, .DICTIONARY fields =>
    match mapFieldsFuel ToString fuel [] fields with
    | none => none
    | some (.error st) => some (.error st)
    | some (.ok children) => some (.ok (.MAP children))
  | fuel + 1, .MAP fields =>
    match mapFieldsFuel ToString fuel [] fields with
    | none => none
    | some (.error st) => some (.error st)
    | some (.ok children) => some (.ok (.MAP children))
  | fuel + 1, .FIXED_SIZE_LIST value_type _ =>
    match mapArrowTypeFuel ToString fuel value_type with
    | none => none
    | some (.error st) => some (.error st)
    | some (.ok inner) => some (.ok (.LIST inner))
  | fuel + 1, .LARGE_LIST value_type =>
    match mapArrowTypeFuel ToString fuel value_type with
    | none => none
    | some (.error st) => some (.error st)
    | some (.ok inner) => some (.ok (.LIST inner))
  | _ + 1, d => some (mapArrowType ToString d)
/-- The field loop under the same bound: it runs inside the call that owns it,
so each field type is mapped with the `fuel` the loop was given. -/
def mapFieldsFuel (ToString : DataType → String) :
    Nat → List (String × LogicalType) → List (String × DataType) →
      Option (Result (List (String × LogicalType)))
  | _, children, [] => some (.ok children)
  | fuel, children, (name, type) :: rest =>
    match mapArrowTypeFuel ToString fuel type with
    | none => none
    | some (.error st) => some (.error st)
    | some (.ok t) => mapFieldsFuel ToString fuel (children ++ [(name, t)]) rest
end

/-- The descriptors on which the `case` of `d` calls `mapArrowType`: the
value type of a list kind, the field types of a `STRUCT` / `MAP` /
`DICTIONARY` in order, none for every other kind. -/
def callArguments : DataType → List DataType
  | .LIST v => [v]
  | .LARGE_LIST v => [v]
  | .FIXED_SIZE_LIST v _ => [v]
  | .STRUCT fs => fs.map Prod.snd
  | .MAP fs => fs.map Prod.snd
  | .DICTIONARY fs => fs.map Prod.snd
  | _ => []

/-! ## The field loop -/

theorem mapFields_children (ts : DataType → String) (fs : List (String × DataType)) :
    ∀ acc : List (String × LogicalType),
      mapFields ts acc fs =
        match mapFields ts [] fs with
        | .error st => .error st
        | .ok cs => .ok (acc ++ cs) := by
  induction fs with
  | nil => intro acc; simp [mapFields]
  | cons f rest ih =>
    intro acc
    obtain ⟨n, t⟩ := f
    simp only [mapFields]
    cases h : mapArrowType ts t with
    | error st => rfl
    | ok u =>
      simp only []
      rw [ih (acc ++ [(n, u)]), ih ([] ++ [(n, u)])]
      cases mapFields ts [] rest <;> simp

theorem mapFields_cons (ts : DataType → String) (n : String) (t : DataType)
    (rest : List (String × DataType)) :
    mapFields ts [] ((n, t) :: rest) =
      match mapArrowType ts t with
      | .error st => .error st
      | .ok u =>
        match mapFields ts [] rest with
        | .error st => .error st
        | .ok cs => .ok ((n, u) :: cs) := by
  simp only [mapFields]
  cases h : mapArrowType ts t with
  | error st => rfl
  | ok u =>
    simp only []
    rw [mapFields_children]
    cases mapFields ts [] rest <;> simp

theorem mapFields_ok_iff (ts : DataType → String) (fs : List (String × DataType)) :
    ∀ cs, mapFields ts [] fs = .ok cs ↔ List.Forall₂ (FieldMapped ts) fs cs := by
  induction fs with
  | nil =>
    intro cs
    simp only [mapFields, Except.ok.injEq, List.forall₂_nil_left_iff]
    exact eq_comm
  | cons f rest ih =>
    intro cs
    obtain ⟨n, t⟩ := f
    rw [mapFields_cons]
    constructor
    · intro h
      cases hu : mapArrowType ts t with
      | error st => rw [hu] at h; cases h
      | ok u =>
        rw [hu] at h
        cases hr : mapFields ts [] rest with
        | error st => rw [hr] at h; cases h
        | ok cs0 =>
          rw [hr] at h
          simp only [Except.ok.injEq] at h
          subst h
          exact List.Forall₂.cons ⟨rfl, hu⟩ ((ih cs0).1 hr)
    · intro h
      cases h with
      | cons hf hrest =>
        rename_i c cs0
        obtain ⟨c1, c2⟩ := c
        obtain ⟨hn, ht⟩ := hf
        simp only at hn ht
        subst hn
        rw [ht]
        simp only []
        rw [(ih cs0).2 hrest]


/-! ## The first unsupported node decides the result -/

mutual
theorem mapArrowType_decided (ts : DataType → String) :
    ∀ d : DataType, DecidedBy ts (mapArrowType ts d) ((reachable d).find? isUnsupported)
  | .LIST v => by
    have ih := mapArrowType_decided ts v
    simp only [mapArrowType, reachable, List.find?_cons, isUnsupported, DataType.id]
    revert ih
    cases mapArrowType ts v <;> cases List.find? isUnsupported (reachable v) <;>
      simp [DecidedBy, isUnsupported]
  | .LARGE_LIST v => by
    have ih := mapArrowType_decided ts v
    simp only [mapArrowType, reachable, List.find?_cons, isUnsupported, DataType.id]
    revert ih
    cases mapArrowType ts v <;> cases List.find? isUnsupported (reachable v) <;>
      simp [DecidedBy, isUnsupported]
  | .FIXED_SIZE_LIST v _ => by
    have ih := mapArrowType_decided ts v
    simp only [mapArrowType, reachable, List.find?_cons, isUnsupported, DataType.id]
    revert ih
    cases mapArrowType ts v <;> cases List.find? isUnsupported (reachable v) <;>
      simp [DecidedBy, isUnsupported]
  | .STRUCT fs => by
    have ih := mapFields_decided ts fs
    simp only [mapArrowType, reachable, List.find?_cons, isUnsupported, DataType.id]
    revert ih
    cases mapFields ts [] fs <;> cases List.find? isUnsupported (reachableOfFields fs) <;>
      simp [DecidedBy, isUnsupported]
  | .MAP fs => by
    have ih := mapFields_decided ts fs
    simp only [mapArrowType, reachable, List.find?_cons, isUnsupported, DataType.id]
    revert ih
    cases mapFields ts [] fs <;> cases List.find? isUnsupported (reachableOfFields fs) <;>
      simp [DecidedBy, isUnsupported]
  | .DICTIONARY fs => by
    have ih := mapFields_decided ts fs
    simp only [mapArrowType, reachable, List.find?_cons, isUnsupported, DataType.id]
    revert ih
    cases mapFields ts [] fs <;> cases List.find? isUnsupported (reachableOfFields fs) <;>
      simp [DecidedBy, isUnsupported]
  | .EXTENSION _ _ => rfl
  | .SPARSE_UNION _ => rfl
  | .DENSE_UNION _ => rfl
  | .NA => ⟨_, rfl⟩
  | .BOOL => ⟨_, rfl⟩
  | .UINT8 => ⟨_, rfl⟩
  | .INT8 => ⟨_, rfl⟩
  | .UINT16 => ⟨_, rfl⟩
  | .INT16 => ⟨_, rfl⟩
  | .UINT32 => ⟨_, rfl⟩
  | .INT32 => ⟨_, rfl⟩
  | .UINT64 => ⟨_, rfl⟩
  | .INT64 => ⟨_, rfl⟩
  | .HALF_FLOAT => ⟨_, rfl⟩
  | .FLOAT => ⟨_, rfl⟩
  | .DOUBLE => ⟨_, rfl⟩
  | .STRING => ⟨_, rfl⟩
  | .BINARY => ⟨_, rfl⟩
  | .FIXED_SIZE_BINARY _ => ⟨_, rfl⟩
  | .DATE32 => ⟨_, rfl⟩
  | .DATE64 => ⟨_, rfl⟩
  | .TIMESTAMP => ⟨_, rfl⟩
  | .TIME32 => ⟨_, rfl⟩
  | .TIME64 => ⟨_, rfl⟩
  | .INTERVAL_MONTHS => ⟨_, rfl⟩
  | .INTERVAL_DAY_TIME => ⟨_, rfl⟩
  | .DECIMAL128 _ _ => ⟨_, rfl⟩
  | .DECIMAL256 _ _ => ⟨_, rfl⟩
  | .DURATION => ⟨_, rfl⟩
  | .LARGE_STRING => ⟨_, rfl⟩
  | .LARGE_BINARY => ⟨_, rfl⟩
  | .MAX_ID => ⟨_, rfl⟩
theorem mapFields_decided (ts : DataType → String) :
    ∀ fs : List (String × DataType),
      DecidedBy ts (mapFields ts [] fs) ((reachableOfFields fs).find? isUnsupported)
  | [] => ⟨[], rfl⟩
  | (n, t) :: rest => by
    have ih1 := mapArrowType_decided ts t
    have ih2 := mapFields_decided ts rest
    rw [mapFields_cons]
    simp only [reachableOfFields, List.find?_append]
    cases h1 : (reachable t).find? isUnsupported with
    | some u =>
      rw [h1] at ih1
      simp only [DecidedBy] at ih1
      rw [ih1]
      simp [DecidedBy]
    | none =>
      rw [h1] at ih1
      obtain ⟨u, hu⟩ := ih1
      rw [hu]
      simp only [Option.none_or]
      revert ih2
      cases mapFields ts [] rest <;> cases List.find? isUnsupported (reachableOfFields rest) <;>
        simp [DecidedBy]
end


theorem mem_reachable_self (d : DataType) : d ∈ reachable d := by
  cases d <;> simp [reachable]

theorem mapArrowType_ok_of_supported (ts : DataType → String) (d : DataType)
    (h : ∀ u ∈ reachable d, isUnsupported u = false) : ∃ t, mapArrowType ts d = .ok t := by
  have hd := mapArrowType_decided ts d
  have hnone : (reachable d).find? isUnsupported = none := by
    rw [List.find?_eq_none]
    intro u hu
    simp [h u hu]
  rw [hnone] at hd
  exact hd

theorem mapArrowType_error_of_unsupported (ts : DataType → String) (d : DataType)
    (h : ∃ u ∈ reachable d, isUnsupported u = true) :
    ∃ u ∈ reachable d, isUnsupported u = true ∧
      mapArrowType ts d = .error (unsupportedStatus ts u) := by
  have hd := mapArrowType_decided ts d
  cases hf : (reachable d).find? isUnsupported with
  | none =>
    rw [List.find?_eq_none] at hf
    obtain ⟨u, hu, hun⟩ := h
    exact absurd hun (hf u hu)
  | some u =>
    rw [hf] at hd
    exact ⟨u, List.mem_of_find?_eq_some hf, List.find?_some hf, hd⟩

mutual
theorem unsupported_reachable_of_descendant :
    ∀ d : DataType, (∃ u ∈ descendants d, isUnsupported u = true) →
      ∃ u ∈ reachable d, isUnsupported u = true
  | .LIST v => by
    have ih := unsupported_reachable_of_descendant v
    simp only [descendants, reachable, List.mem_cons, exists_eq_or_imp]
    rintro (h | h)
    · exact Or.inl h
    · exact Or.inr (ih h)
  | .LARGE_LIST v => by
    have ih := unsupported_reachable_of_descendant v
    simp only [descendants, reachable, List.mem_cons, exists_eq_or_imp]
    rintro (h | h)
    · exact Or.inl h
    · exact Or.inr (ih h)
  | .FIXED_SIZE_LIST v _ => by
    have ih := unsupported_reachable_of_descendant v
    simp only [descendants, reachable, List.mem_cons, exists_eq_or_imp]
    rintro (h | h)
    · exact Or.inl h
    · exact Or.inr (ih h)
  | .STRUCT fs => by
    have ih := unsupported_reachable_of_field_descendant fs
    simp only [descendants, reachable, List.mem_cons, exists_eq_or_imp]
    rintro (h | h)
    · exact Or.inl h
    · exact Or.inr (ih h)
  | .MAP fs => by
    have ih := unsupported_reachable_of_field_descendant fs
    simp only [descendants, reachable, List.mem_cons, exists_eq_or_imp]
    rintro (h | h)
    · exact Or.inl h
    · exact Or.inr (ih h)
  | .DICTIONARY fs => by
    have ih := unsupported_reachable_of_field_descendant fs
    simp only [descendants, reachable, List.mem_cons, exists_eq_or_imp]
    rintro (h | h)
    · exact Or.inl h
    · exact Or.inr (ih h)
  | .SPARSE_UNION fs => fun _ => ⟨.SPARSE_UNION fs, by simp [reachable], rfl⟩
  | .DENSE_UNION fs => fun _ => ⟨.DENSE_UNION fs, by simp [reachable], rfl⟩
  | .EXTENSION n s => fun _ => ⟨.EXTENSION n s, by simp [reachable], rfl⟩
  | .NA => by simp [descendants, isUnsupported, DataType.id]
  | .BOOL => by simp [descendants, isUnsupported, DataType.id]
  | .UINT8 => by simp [descendants, isUnsupported, DataType.id]
  | .INT8 => by simp [descendants, isUnsupported, DataType.id]
  | .UINT16 => by simp [descendants, isUnsupported, DataType.id]
  | .INT16 => by simp [descendants, isUnsupported, DataType.id]
  | .UINT32 => by simp [descendants, isUnsupported, DataType.id]
  | .INT32 => by simp [descendants, isUnsupported, DataType.id]
  | .UINT64 => by simp [descendants, isUnsupported, DataType.id]
  | .INT64 => by simp [descendants, isUnsupported, DataType.id]
  | .HALF_FLOAT => by simp [descendants, isUnsupported, DataType.id]
  | .FLOAT => by simp [descendants, isUnsupported, DataType.id]
  | .DOUBLE => by simp [descendants, isUnsupported, DataType.id]
  | .STRING => by simp [descendants, isUnsupported, DataType.id]
  | .BINARY => by simp [descendants, isUnsupported, DataType.id]
  | .DATE32 => by simp [descendants, isUnsupported, DataType.id]
  | .DATE64 => by simp [descendants, isUnsupported, DataType.id]
  | .TIMESTAMP => by simp [descendants, isUnsupported, DataType.id]
  | .TIME32 => by simp [descendants, isUnsupported, DataType.id]
  | .TIME64 => by simp [descendants, isUnsupported, DataType.id]
  | .INTERVAL_MONTHS => by simp [descendants, isUnsupported, DataType.id]
  | .INTERVAL_DAY_TIME => by simp [descendants, isUnsupported, DataType.id]
  | .DURATION => by simp [descendants, isUnsupported, DataType.id]
  | .LARGE_STRING => by simp [descendants, isUnsupported, DataType.id]
  | .LARGE_BINARY => by simp [descendants, isUnsupported, DataType.id]
  | .MAX_ID => by simp [descendants, isUnsupported, DataType.id]
  | .FIXED_SIZE_BINARY _ => by simp [descendants, isUnsupported, DataType.id]
  | .DECIMAL128 _ _ => by simp [descendants, isUnsupported, DataType.id]
  | .DECIMAL256 _ _ => by simp [descendants, isUnsupported, DataType.id]
theorem unsupported_reachable_of_field_descendant :
    ∀ fs : List (String × DataType), (∃ u ∈ descendantsOfFields fs, isUnsupported u = true) →
      ∃ u ∈ reachableOfFields fs, isUnsupported u = true
  | [] => by simp [descendantsOfFields]
  | (_, t) :: rest => by
    have ih1 := unsupported_reachable_of_descendant t
    have ih2 := unsupported_reachable_of_field_descendant rest
    simp only [descendantsOfFields, reachableOfFields, List.mem_append]
    rintro ⟨u, hu | hu, hun⟩
    · obtain ⟨w, hw, hwu⟩ := ih1 ⟨u, hu, hun⟩
      exact ⟨w, Or.inl hw, hwu⟩
    · obtain ⟨w, hw, hwu⟩ := ih2 ⟨u, hu, hun⟩
      exact ⟨w, Or.inr hw, hwu⟩
end


theorem reachable_of_leaf (d : DataType) (hc : isContainer d = false) : reachable d = [d] := by
  cases d <;> first | rfl | simp [isContainer, DataType.id] at hc

/-! ## Totality, failure propagation, structure -/

/-- C1 as stated fails: a `LIST` of a sparse union has a kind other than
`EXTENSION`, `SPARSE_UNION`, `DENSE_UNION`, yet `mapArrowType` returns the
NotImplemented status of the union. -/
theorem list_of_union_not_mapped :
    (DataType.LIST (.SPARSE_UNION [("a", .INT32), ("b", .STRING)])).id = TypeId.LIST ∧
    isUnsupported (.LIST (.SPARSE_UNION [("a", .INT32), ("b", .STRING)])) = false ∧
    mapArrowType kindName (.LIST (.SPARSE_UNION [("a", .INT32), ("b", .STRING)])) =
      .error { code := StatusCode.NotImplemented, msg := "DuckDB type mapping for: sparse_union" } :=
  ⟨rfl, rfl, rfl⟩

/-- C1 (amended): `mapArrowType` returns success on every descriptor from
which no `EXTENSION`, `SPARSE_UNION` or `DENSE_UNION` node is reachable
through list value types and struct / map / dictionary field types, in
particular on every descriptor whose kind is neither one of those three nor a
container kind; on every descriptor whose kind is one of the three it returns
the NotImplemented error. -/
theorem mapArrowType_total_except_unsupported (ts : DataType → String) (d : DataType) :
    ((∀ u ∈ reachable d, isUnsupported u = false) → ∃ t, mapArrowType ts d = .ok t) ∧
    (isUnsupported d = false → isContainer d = false → ∃ t, mapArrowType ts d = .ok t) ∧
    (isUnsupported d = true →
      mapArrowType ts d =
        .error { code := StatusCode.NotImplemented,
                 msg := "DuckDB type mapping for: " ++ ts d }) := by
  refine ⟨mapArrowType_ok_of_supported ts d, ?_, ?_⟩
  · intro hu hc
    apply mapArrowType_ok_of_supported
    rw [reachable_of_leaf d hc]
    simpa using hu
  · intro hu
    cases d <;> first | rfl | simp [isUnsupported, DataType.id] at hu

theorem mapArrowType_total_except_unsupported_witness :
    (∃ t, mapArrowType kindName (.STRUCT [("a", .LIST .INT32), ("b", .NA)]) = .ok t) ∧
    (∃ t, mapArrowType kindName (.DECIMAL128 38 10) = .ok t) ∧
    mapArrowType kindName (.EXTENSION "uuid" (.FIXED_SIZE_BINARY 16)) =
      .error { code := StatusCode.NotImplemented,
               msg := "DuckDB type mapping for: " ++ kindName (.EXTENSION "uuid" (.FIXED_SIZE_BINARY 16)) } :=
  ⟨(mapArrowType_total_except_unsupported kindName (.STRUCT [("a", .LIST .INT32), ("b", .NA)])).1
      (by simp [reachable, reachableOfFields, isUnsupported, DataType.id]),
   (mapArrowType_total_except_unsupported kindName (.DECIMAL128 38 10)).2.1 rfl rfl,
   (mapArrowType_total_except_unsupported kindName
      (.EXTENSION "uuid" (.FIXED_SIZE_BINARY 16))).2.2 rfl⟩


mutual
theorem reachable_subset_descendants :
    ∀ (d u : DataType), u ∈ reachable d → u ∈ descendants d
  | .LIST v, u => by
    have ih := reachable_subset_descendants v u
    simp only [descendants, reachable, List.mem_cons]
    exact Or.imp_right ih
  | .LARGE_LIST v, u => by
    have ih := reachable_subset_descendants v u
    simp only [descendants, reachable, List.mem_cons]
    exact Or.imp_right ih
  | .FIXED_SIZE_LIST v _, u => by
    have ih := reachable_subset_descendants v u
    simp only [descendants, reachable, List.mem_cons]
    exact Or.imp_right ih
  | .STRUCT fs, u => by
    have ih := reachableOfFields_subset_descendants fs u
    simp only [descendants, reachable, List.mem_cons]
    exact Or.imp_right ih
  | .MAP fs, u => by
    have ih := reachableOfFields_subset_descendants fs u
    simp only [descendants, reachable, List.mem_cons]
    exact Or.imp_right ih
  | .DICTIONARY fs, u => by
    have ih := reachableOfFields_subset_descendants fs u
    simp only [descendants, reachable, List.mem_cons]
    exact Or.imp_right ih
  | .SPARSE_UNION fs, u => by
    simp only [descendants, reachable, List.mem_cons, List.not_mem_nil, or_false]
    exact fun h => Or.inl h
  | .DENSE_UNION fs, u => by
    simp only [descendants, reachable, List.mem_cons, List.not_mem_nil, or_false]
    exact fun h => Or.inl h
  | .EXTENSION n s, u => by
    simp only [descendants, reachable, List.mem_cons, List.not_mem_nil, or_false]
    exact fun h => Or.inl h
  | .NA, u => by simp [descendants, reachable]
  | .BOOL, u => by simp [descendants, reachable]
  | .UINT8, u => by simp [descendants, reachable]
  | .INT8, u => by simp [descendants, reachable]
  | .UINT16, u => by simp [descendants, reachable]
  | .INT16, u => by simp [descendants, reachable]
  | .UINT32, u => by simp [descendants, reachable]
  | .INT32, u => by simp [descendants, reachable]
  | .UINT64, u => by simp [descendants, reachable]
  | .INT64, u => by simp [descendants, reachable]
  | .HALF_FLOAT, u => by simp [descendants, reachable]
  | .FLOAT, u => by simp [descendants, reachable]
  | .DOUBLE, u => by simp [descendants, reachable]
  | .STRING, u => by simp [descendants, reachable]
  | .BINARY, u => by simp [descendants, reachable]
  | .DATE32, u => by simp [descendants, reachable]
  | .DATE64, u => by simp [descendants, reachable]
  | .TIMESTAMP, u => by simp [descendants, reachable]
  | .TIME32, u => by simp [descendants, reachable]
  | .TIME64, u => by simp [descendants, reachable]
  | .INTERVAL_MONTHS, u => by simp [descendants, reachable]
  | .INTERVAL_DAY_TIME, u => by simp [descendants, reachable]
  | .DURATION, u => by simp [descendants, reachable]
  | .LARGE_STRING, u => by simp [descendants, reachable]
  | .LARGE_BINARY, u => by simp [descendants, reachable]
  | .MAX_ID, u => by simp [descendants, reachable]
  | .FIXED_SIZE_BINARY _, u => by simp [descendants, reachable]
  | .DECIMAL128 _ _, u => by simp [descendants, reachable]
  | .DECIMAL256 _ _, u => by simp [descendants, reachable]
theorem reachableOfFields_subset_descendants :
    ∀ (fs : List (String × DataType)) (u : DataType),
      u ∈ reachableOfFields fs → u ∈ descendantsOfFields fs
  | [], u => by simp [reachableOfFields]
  | (_, t) :: rest, u => by
    have ih1 := reachable_subset_descendants t u
    have ih2 := reachableOfFields_subset_descendants rest u
    simp only [descendantsOfFields, reachableOfFields, List.mem_append]
    exact Or.imp ih1 ih2
end


theorem mapArrowType_unsupported (ts : DataType → String) (d : DataType)
    (h : isUnsupported d = true) :
    mapArrowType ts d =
      .error { code := StatusCode.NotImplemented, msg := "DuckDB type mapping for: " ++ ts d } := by
  cases d <;> first | rfl | simp [isUnsupported, DataType.id] at h

theorem mapFields_fieldsImage (ts : DataType → String) (fs : List (String × DataType))
    (cs : List (String × LogicalType)) (h : mapFields ts [] fs = .ok cs) :
    FieldsImage ts fs cs := by
  have hf := (mapFields_ok_iff ts fs cs).1 h
  exact ⟨hf.length_eq.symm, fun i h1 h2 => hf.get h1 h2⟩

theorem mapArrowType_struct_ok (ts : DataType → String) (fs : List (String × DataType))
    (r : LogicalType) (h : mapArrowType ts (.STRUCT fs) = .ok r) :
    ∃ cs, r = .STRUCT cs ∧ mapFields ts [] fs = .ok cs := by
  simp only [mapArrowType] at h
  cases hm : mapFields ts [] fs with
  | error st => rw [hm] at h; cases h
  | ok cs => rw [hm] at h; cases h; exact ⟨cs, rfl, rfl⟩

theorem mapArrowType_map_ok (ts : DataType → String) (fs : List (String × DataType))
    (r : LogicalType) (h : mapArrowType ts (.MAP fs) = .ok r) :
    ∃ cs, r = .MAP cs ∧ mapFields ts [] fs = .ok cs := by
  simp only [mapArrowType] at h
  cases hm : mapFields ts [] fs with
  | error st => rw [hm] at h; cases h
  | ok cs => rw [hm] at h; cases h; exact ⟨cs, rfl, rfl⟩

/-- C2: if a descriptor contains, at any depth, a node of kind `EXTENSION`,
`SPARSE_UNION` or `DENSE_UNION`, then `mapArrowType` on the descriptor returns
no success at all: it returns exactly what it returns on one such node `w` of
the descriptor taken alone, the NotImplemented status whose message is built
from the textual form of `w`. -/
theorem mapArrowType_fail_fast (ts : DataType → String) (d u : DataType)
    (hu : u ∈ descendants d) (hun : isUnsupported u = true) :
    ∃ w ∈ descendants d, isUnsupported w = true ∧
      mapArrowType ts w =
        .error { code := StatusCode.NotImplemented,
                 msg := "DuckDB type mapping for: " ++ ts w } ∧
      mapArrowType ts d = mapArrowType ts w ∧
      ∀ t, mapArrowType ts d ≠ .ok t := by
  obtain ⟨w, hw, hwu, hd⟩ := mapArrowType_error_of_unsupported ts d
    (unsupported_reachable_of_descendant d ⟨u, hu, hun⟩)
  have hwe := mapArrowType_unsupported ts w hwu
  refine ⟨w, reachable_subset_descendants d w hw, hwu, hwe, ?_, ?_⟩
  · rw [hd, hwe]; rfl
  · intro t ht
    rw [hd] at ht
    cases ht

theorem mapArrowType_fail_fast_witness :
    ∃ w ∈ descendants (.STRUCT [("a", .INT32), ("b", .LIST (.DENSE_UNION [("x", .INT8)]))]),
      isUnsupported w = true ∧
      mapArrowType kindName w =
        .error { code := StatusCode.NotImplemented,
                 msg := "DuckDB type mapping for: " ++ kindName w } ∧
      mapArrowType kindName (.STRUCT [("a", .INT32), ("b", .LIST (.DENSE_UNION [("x", .INT8)]))]) =
        mapArrowType kindName w ∧
      ∀ t, mapArrowType kindName
        (.STRUCT [("a", .INT32), ("b", .LIST (.DENSE_UNION [("x", .INT8)]))]) ≠ .ok t :=
  mapArrowType_fail_fast kindName
    (.STRUCT [("a", .INT32), ("b", .LIST (.DENSE_UNION [("x", .INT8)]))])
    (.DENSE_UNION [("x", .INT8)])
    (by simp [descendants, descendantsOfFields]) rfl

/-- C3: when `mapArrowType` succeeds on a `STRUCT` (a `MAP`) with fields
`fs`, the result is a struct (a map) whose field sequence has the length of
`fs`, whose i-th name is the i-th name of `fs`, and whose i-th type is the
successful result of `mapArrowType` on the i-th type of `fs`. -/
theorem mapArrowType_struct_map_fields (ts : DataType → String)
    (fs : List (String × DataType)) (r : LogicalType) :
    (mapArrowType ts (.STRUCT fs) = .ok r → ∃ cs, r = .STRUCT cs ∧ FieldsImage ts fs cs) ∧
    (mapArrowType ts (.MAP fs) = .ok r → ∃ cs, r = .MAP cs ∧ FieldsImage ts fs cs) := by
  constructor
  · intro h
    obtain ⟨cs, hr, hm⟩ := mapArrowType_struct_ok ts fs r h
    exact ⟨cs, hr, mapFields_fieldsImage ts fs cs hm⟩
  · intro h
    obtain ⟨cs, hr, hm⟩ := mapArrowType_map_ok ts fs r h
    exact ⟨cs, hr, mapFields_fieldsImage ts fs cs hm⟩

theorem mapArrowType_struct_map_fields_witness :
    (∃ cs, LogicalType.STRUCT [("a", .INTEGER), ("a", .VARCHAR)] = .STRUCT cs ∧
      FieldsImage kindName [("a", .INT32), ("a", .STRING)] cs) ∧
    (∃ cs, LogicalType.MAP [("k", .LIST .DOUBLE), ("v", .INVALID)] = .MAP cs ∧
      FieldsImage kindName [("k", .LARGE_LIST .DOUBLE), ("v", .NA)] cs) :=
  ⟨(mapArrowType_struct_map_fields kindName [("a", .INT32), ("a", .STRING)]
      (.STRUCT [("a", .INTEGER), ("a", .VARCHAR)])).1 rfl,
   (mapArrowType_struct_map_fields kindName [("k", .LARGE_LIST .DOUBLE), ("v", .NA)]
      (.MAP [("k", .LIST .DOUBLE), ("v", .INVALID)])).2 rfl⟩

/-- C4: on a `DECIMAL128` and on a `DECIMAL256` descriptor with precision `p`
and scale `s`, `mapArrowType` succeeds with `DECIMAL(p, s)`: both numbers are
passed on as they are, and the bit width plays no part. -/
theorem mapArrowType_decimal (ts : DataType → String) (p s : Int) :
    mapArrowType ts (.DECIMAL128 p s) = .ok (.DECIMAL p s) ∧
    mapArrowType ts (.DECIMAL256 p s) = .ok (.DECIMAL p s) ∧
    mapArrowType ts (.DECIMAL128 p s) = mapArrowType ts (.DECIMAL256 p s) :=
  ⟨rfl, rfl, rfl⟩

/-- C5: on the `NA` descriptor and on the `MAX_ID` descriptor `mapArrowType`
returns success with the `INVALID` logical type, never an error. -/
theorem mapArrowType_sentinels (ts : DataType → String) :
    mapArrowType ts .NA = .ok .INVALID ∧ mapArrowType ts .MAX_ID = .ok .INVALID ∧
    (∀ st, mapArrowType ts .NA ≠ .error st) ∧ (∀ st, mapArrowType ts .MAX_ID ≠ .error st) :=
  ⟨rfl, rfl, fun _ h => (by cases h), fun _ h => (by cases h)⟩


/-! ## The dispatch table -/

theorem mapArrowType_dictionary_ok (ts : DataType → String) (fs : List (String × DataType))
    (r : LogicalType) (h : mapArrowType ts (.DICTIONARY fs) = .ok r) :
    ∃ cs, r = .MAP cs ∧ mapFields ts [] fs = .ok cs := by
  simp only [mapArrowType] at h
  cases hm : mapFields ts [] fs with
  | error st => rw [hm] at h; cases h
  | ok cs => rw [hm] at h; cases h; exact ⟨cs, rfl, rfl⟩

/-- C6: on a descriptor `d` of kind `EXTENSION`, `SPARSE_UNION` or
`DENSE_UNION`, whatever its children, `mapArrowType` returns one
NotImplemented status whose message is "DuckDB type mapping for: " followed
by the textual form of `d` itself; the children play no part, the result is
the same for any two such descriptors with the same textual form. -/
theorem mapArrowType_unsupported_status (ts : DataType → String) (d : DataType)
    (h : isUnsupported d = true) :
    mapArrowType ts d =
      .error { code := StatusCode.NotImplemented,
               msg := "DuckDB type mapping for: " ++ ts d } ∧
    (∀ d', isUnsupported d' = true → ts d' = ts d →
      mapArrowType ts d' = mapArrowType ts d) := by
  refine ⟨mapArrowType_unsupported ts d h, ?_⟩
  intro d' h' heq
  rw [mapArrowType_unsupported ts d h, mapArrowType_unsupported ts d' h', heq]

theorem mapArrowType_unsupported_status_witness :
    mapArrowType kindName (.SPARSE_UNION [("a", .INT32), ("b", .STRING)]) =
      .error { code := StatusCode.NotImplemented,
               msg := "DuckDB type mapping for: " ++
                 kindName (.SPARSE_UNION [("a", .INT32), ("b", .STRING)]) } ∧
    (∀ d', isUnsupported d' = true →
      kindName d' = kindName (.SPARSE_UNION [("a", .INT32), ("b", .STRING)]) →
      mapArrowType kindName d' =
        mapArrowType kindName (.SPARSE_UNION [("a", .INT32), ("b", .STRING)])) :=
  mapArrowType_unsupported_status kindName (.SPARSE_UNION [("a", .INT32), ("b", .STRING)]) rfl

/-- C7: each of the eight integer kinds is mapped, with success, to the
integer type of the same width and signedness, and on the integer kinds the
mapping is injective. -/
theorem mapArrowType_integers (ts : DataType → String) :
    mapArrowType ts .INT8 = .ok .TINYINT ∧
    mapArrowType ts .INT16 = .ok .SMALLINT ∧
    mapArrowType ts .INT32 = .ok .INTEGER ∧
    mapArrowType ts .INT64 = .ok .BIGINT ∧
    mapArrowType ts .UINT8 = .ok .UTINYINT ∧
    mapArrowType ts .UINT16 = .ok .USMALLINT ∧
    mapArrowType ts .UINT32 = .ok .UINTEGER ∧
    mapArrowType ts .UINT64 = .ok .UBIGINT ∧
    (∀ d1 d2 : DataType, isInteger d1 = true → isInteger d2 = true →
      mapArrowType ts d1 = mapArrowType ts d2 → d1 = d2) := by
  refine ⟨rfl, rfl, rfl, rfl, rfl, rfl, rfl, rfl, ?_⟩
  intro d1 d2 h1 h2 h
  cases d1 <;> simp [isInteger, DataType.id] at h1 <;>
    cases d2 <;> simp [isInteger, DataType.id] at h2 <;>
      first | rfl | (simp [mapArrowType] at h)

theorem mapArrowType_integers_witness :
    isInteger .INT8 = true ∧ isInteger .UINT8 = true ∧
    mapArrowType kindName .INT8 ≠ mapArrowType kindName .UINT8 :=
  ⟨rfl, rfl, fun h =>
    DataType.noConfusion
      ((mapArrowType_integers kindName).2.2.2.2.2.2.2.2 .INT8 .UINT8 rfl rfl h)⟩

/-- C8: `LIST c`, `LARGE_LIST c` and `FIXED_SIZE_LIST c n` have the same
result, errors included; when `mapArrowType c` succeeds with `t` the three
succeed with `LIST t`, and when it fails they fail with the same status. -/
theorem mapArrowType_lists (ts : DataType → String) (c : DataType) (n : Int) :
    mapArrowType ts (.LIST c) = mapArrowType ts (.LARGE_LIST c) ∧
    mapArrowType ts (.LIST c) = mapArrowType ts (.FIXED_SIZE_LIST c n) ∧
    (∀ t, mapArrowType ts c = .ok t →
      mapArrowType ts (.LIST c) = .ok (.LIST t) ∧
      mapArrowType ts (.LARGE_LIST c) = .ok (.LIST t) ∧
      mapArrowType ts (.FIXED_SIZE_LIST c n) = .ok (.LIST t)) ∧
    (∀ st, mapArrowType ts c = .error st →
      mapArrowType ts (.LIST c) = .error st ∧
      mapArrowType ts (.LARGE_LIST c) = .error st ∧
      mapArrowType ts (.FIXED_SIZE_LIST c n) = .error st) := by
  refine ⟨?_, ?_, ?_, ?_⟩
  · simp only [mapArrowType]
  · simp only [mapArrowType]
  · intro t h
    simp only [mapArrowType, h, and_self]
  · intro st h
    simp only [mapArrowType, h, and_self]

theorem mapArrowType_lists_witness :
    mapArrowType kindName (.LIST .DOUBLE) = .ok (.LIST .DOUBLE) ∧
    mapArrowType kindName (.LARGE_LIST .DOUBLE) = .ok (.LIST .DOUBLE) ∧
    mapArrowType kindName (.FIXED_SIZE_LIST .DOUBLE 3) = .ok (.LIST .DOUBLE) :=
  (mapArrowType_lists kindName .DOUBLE 3).2.2.1 .DOUBLE rfl

/-- C9: a `DICTIONARY` with fields `fs` has the result of a `MAP` with the
same fields, on success and on failure; on success it is a map with the names
of `fs` in order and the mapped field types, as in the example with the
fields "values" and "indices". -/
theorem mapArrowType_dictionary_as_map (ts : DataType → String)
    (fs : List (String × DataType)) :
    mapArrowType ts (.DICTIONARY fs) = mapArrowType ts (.MAP fs) ∧
    (∀ r, mapArrowType ts (.DICTIONARY fs) = .ok r →
      ∃ cs, r = .MAP cs ∧ FieldsImage ts fs cs) ∧
    mapArrowType ts (.DICTIONARY [("values", .STRING), ("indices", .INT32)]) =
      .ok (.MAP [("values", .VARCHAR), ("indices", .INTEGER)]) := by
  refine ⟨?_, ?_, rfl⟩
  · simp only [mapArrowType]
  · intro r h
    obtain ⟨cs, hr, hm⟩ := mapArrowType_dictionary_ok ts fs r h
    exact ⟨cs, hr, mapFields_fieldsImage ts fs cs hm⟩

theorem mapArrowType_dictionary_as_map_witness :
    ∃ cs, LogicalType.MAP [("values", .VARCHAR), ("indices", .INTEGER)] = .MAP cs ∧
      FieldsImage kindName [("values", .STRING), ("indices", .INT32)] cs :=
  (mapArrowType_dictionary_as_map kindName [("values", .STRING), ("indices", .INT32)]).2.1
    (.MAP [("values", .VARCHAR), ("indices", .INTEGER)]) rfl

/-- C10: `TIMESTAMP`, `TIME32` and `TIME64` are mapped to timestamp,
`DURATION` to time, `DATE32` and `DATE64` to date, `INTERVAL_MONTHS` and
`INTERVAL_DAY_TIME` to interval, each with success; and a descriptor mapped
to time is the `DURATION` descriptor. -/
theorem mapArrowType_temporal (ts : DataType → String) :
    mapArrowType ts .TIMESTAMP = .ok .TIMESTAMP ∧
    mapArrowType ts .TIME32 = .ok .TIMESTAMP ∧
    mapArrowType ts .TIME64 = .ok .TIMESTAMP ∧
    mapArrowType ts .DURATION = .ok .TIME ∧
    mapArrowType ts .DATE32 = .ok .DATE ∧
    mapArrowType ts .DATE64 = .ok .DATE ∧
    mapArrowType ts .INTERVAL_MONTHS = .ok .INTERVAL ∧
    mapArrowType ts .INTERVAL_DAY_TIME = .ok .INTERVAL ∧
    (∀ d : DataType, mapArrowType ts d = .ok .TIME → d = .DURATION ∧ d.id = TypeId.DURATION) := by
  refine ⟨rfl, rfl, rfl, rfl, rfl, rfl, rfl, rfl, ?_⟩
  intro d h
  cases d <;> simp only [mapArrowType] at h <;>
    first
    | exact ⟨rfl, rfl⟩
    | cases h
    | (split at h <;> cases h)

theorem mapArrowType_temporal_witness :
    mapArrowType kindName .DURATION = .ok .TIME ∧
    mapArrowType kindName .TIME32 ≠ .ok .TIME ∧
    mapArrowType kindName .TIME64 ≠ .ok .TIME :=
  ⟨(mapArrowType_temporal kindName).2.2.2.1,
   fun h => DataType.noConfusion ((mapArrowType_temporal kindName).2.2.2.2.2.2.2.2 .TIME32 h).1,
   fun h => DataType.noConfusion ((mapArrowType_temporal kindName).2.2.2.2.2.2.2.2 .TIME64 h).1⟩


/-! ## Induction over descriptors -/

mutual
theorem DataType.induction (P : DataType → Prop)
    (leaf : ∀ d, isContainer d = false → isUnsupported d = false → P d)
    (list : ∀ v, P v → P (.LIST v))
    (large : ∀ v, P v → P (.LARGE_LIST v))
    (fixed : ∀ v n, P v → P (.FIXED_SIZE_LIST v n))
    (struct : ∀ fs, (∀ f ∈ fs, P f.2) → P (.STRUCT fs))
    (map : ∀ fs, (∀ f ∈ fs, P f.2) → P (.MAP fs))
    (dict : ∀ fs, (∀ f ∈ fs, P f.2) → P (.DICTIONARY fs))
    (sparse : ∀ fs, (∀ f ∈ fs, P f.2) → P (.SPARSE_UNION fs))
    (dense : ∀ fs, (∀ f ∈ fs, P f.2) → P (.DENSE_UNION fs))
    (ext : ∀ n st, P st → P (.EXTENSION n st)) :
    ∀ d : DataType, P d
  | .NA => leaf _ rfl rfl
  | .BOOL => leaf _ rfl rfl
  | .UINT8 => leaf _ rfl rfl
  | .INT8 => leaf _ rfl rfl
  | .UINT16 => leaf _ rfl rfl
  | .INT16 => leaf _ rfl rfl
  | .UINT32 => leaf _ rfl rfl
  | .INT32 => leaf _ rfl rfl
  | .UINT64 => leaf _ rfl rfl
  | .INT64 => leaf _ rfl rfl
  | .HALF_FLOAT => leaf _ rfl rfl
  | .FLOAT => leaf _ rfl rfl
  | .DOUBLE => leaf _ rfl rfl
  | .STRING => leaf _ rfl rfl
  | .BINARY => leaf _ rfl rfl
  | .DATE32 => leaf _ rfl rfl
  | .DATE64 => leaf _ rfl rfl
  | .TIMESTAMP => leaf _ rfl rfl
  | .TIME32 => leaf _ rfl rfl
  | .TIME64 => leaf _ rfl rfl
  | .INTERVAL_MONTHS => leaf _ rfl rfl
  | .INTERVAL_DAY_TIME => leaf _ rfl rfl
  | .DURATION => leaf _ rfl rfl
  | .LARGE_STRING => leaf _ rfl rfl
  | .LARGE_BINARY => leaf _ rfl rfl
  | .MAX_ID => leaf _ rfl rfl
  | .FIXED_SIZE_BINARY _ => leaf _ rfl rfl
  | .DECIMAL128 _ _ => leaf _ rfl rfl
  | .DECIMAL256 _ _ => leaf _ rfl rfl
  | .LIST v => list v (DataType.induction P leaf list large fixed struct map dict sparse dense ext v)
  | .LARGE_LIST v => large v (DataType.induction P leaf list large fixed struct map dict sparse dense ext v)
  | .FIXED_SIZE_LIST v n => fixed v n (DataType.induction P leaf list large fixed struct map dict sparse dense ext v)
  | .STRUCT fs => struct fs (DataType.induction_fields P leaf list large fixed struct map dict sparse dense ext fs)
  | .MAP fs => map fs (DataType.induction_fields P leaf list large fixed struct map dict sparse dense ext fs)
  | .DICTIONARY fs => dict fs (DataType.induction_fields P leaf list large fixed struct map dict sparse dense ext fs)
  | .SPARSE_UNION fs => sparse fs (DataType.induction_fields P leaf list large fixed struct map dict sparse dense ext fs)
  | .DENSE_UNION fs => dense fs (DataType.induction_fields P leaf list large fixed struct map dict sparse dense ext fs)
  | .EXTENSION n st => ext n st (DataType.induction P leaf list large fixed struct map dict sparse dense ext st)
theorem DataType.induction_fields (P : DataType → Prop)
    (leaf : ∀ d, isContainer d = false → isUnsupported d = false → P d)
    (list : ∀ v, P v → P (.LIST v))
    (large : ∀ v, P v → P (.LARGE_LIST v))
    (fixed : ∀ v n, P v → P (.FIXED_SIZE_LIST v n))
    (struct : ∀ fs, (∀ f ∈ fs, P f.2) → P (.STRUCT fs))
    (map : ∀ fs, (∀ f ∈ fs, P f.2) → P (.MAP fs))
    (dict : ∀ fs, (∀ f ∈ fs, P f.2) → P (.DICTIONARY fs))
    (sparse : ∀ fs, (∀ f ∈ fs, P f.2) → P (.SPARSE_UNION fs))
    (dense : ∀ fs, (∀ f ∈ fs, P f.2) → P (.DENSE_UNION fs))
    (ext : ∀ n st, P st → P (.EXTENSION n st)) :
    ∀ fs : List (String × DataType), ∀ f ∈ fs, P f.2
  | [] => fun _ h => absurd h (List.not_mem_nil _)
  | (n, t) :: rest => fun f h => by
    have h1 := DataType.induction P leaf list large fixed struct map dict sparse dense ext t
    have h2 := DataType.induction_fields P leaf list large fixed struct map dict sparse dense ext rest
    rcases List.mem_cons.1 h with h | h
    · subst h; exact h1
    · exact h2 f h
end


theorem mapArrowType_list_ok (ts : DataType → String) (v : DataType) (r : LogicalType)
    (h : mapArrowType ts (.LIST v) = .ok r) :
    ∃ inner, r = .LIST inner ∧ mapArrowType ts v = .ok inner := by
  simp only [mapArrowType] at h
  cases hm : mapArrowType ts v with
  | error st => rw [hm] at h; cases h
  | ok inner => rw [hm] at h; cases h; exact ⟨inner, rfl, rfl⟩

theorem mapArrowType_large_list_ok (ts : DataType → String) (v : DataType) (r : LogicalType)
    (h : mapArrowType ts (.LARGE_LIST v) = .ok r) :
    ∃ inner, r = .LIST inner ∧ mapArrowType ts v = .ok inner := by
  simp only [mapArrowType] at h
  cases hm : mapArrowType ts v with
  | error st => rw [hm] at h; cases h
  | ok inner => rw [hm] at h; cases h; exact ⟨inner, rfl, rfl⟩

theorem mapArrowType_fixed_size_list_ok (ts : DataType → String) (v : DataType) (n : Int)
    (r : LogicalType) (h : mapArrowType ts (.FIXED_SIZE_LIST v n) = .ok r) :
    ∃ inner, r = .LIST inner ∧ mapArrowType ts v = .ok inner := by
  simp only [mapArrowType] at h
  cases hm : mapArrowType ts v with
  | error st => rw [hm] at h; cases h
  | ok inner => rw [hm] at h; cases h; exact ⟨inner, rfl, rfl⟩

theorem mapArrowType_leaf_depth (ts : DataType → String) (d : DataType)
    (hc : isContainer d = false) (t : LogicalType) (h : mapArrowType ts d = .ok t) :
    logicalDepth t = 0 ∧ depth d = 0 := by
  cases d <;> simp only [mapArrowType] at h <;>
    first
    | (cases h; exact ⟨rfl, rfl⟩)
    | cases h
    | (simp [isContainer, DataType.id] at hc)

/-! ## Leaf kinds and nesting depth -/

/-- C11: `STRING` and `LARGE_STRING` are both mapped to `VARCHAR`; `BINARY`,
`LARGE_BINARY` and `FIXED_SIZE_BINARY` of any byte width to `BLOB`;
`HALF_FLOAT` and `FLOAT` to `FLOAT`; `DOUBLE` to `DOUBLE` and `BOOL` to
`BOOLEAN`; each with success. -/
theorem mapArrowType_leaf_classes (ts : DataType → String) (w : Int) :
    mapArrowType ts .STRING = .ok .VARCHAR ∧
    mapArrowType ts .LARGE_STRING = .ok .VARCHAR ∧
    mapArrowType ts .BINARY = .ok .BLOB ∧
    mapArrowType ts .LARGE_BINARY = .ok .BLOB ∧
    mapArrowType ts (.FIXED_SIZE_BINARY w) = .ok .BLOB ∧
    mapArrowType ts .HALF_FLOAT = .ok .FLOAT ∧
    mapArrowType ts .FLOAT = .ok .FLOAT ∧
    mapArrowType ts .DOUBLE = .ok .DOUBLE ∧
    mapArrowType ts .BOOL = .ok .BOOLEAN :=
  ⟨rfl, rfl, rfl, rfl, rfl, rfl, rfl, rfl, rfl⟩

theorem fields_depth (ts : DataType → String) (fs : List (String × DataType))
    (cs : List (String × LogicalType)) (hf : List.Forall₂ (FieldMapped ts) fs cs)
    (ih : ∀ f ∈ fs, ∀ t, mapArrowType ts f.2 = .ok t → logicalDepth t = depth f.2) :
    logicalDepthOfChildren cs = depthOfFields fs := by
  induction hf with
  | nil => rfl
  | @cons f c fs0 cs0 hfc _ ihr =>
    obtain ⟨n, t⟩ := f
    obtain ⟨m, u⟩ := c
    simp only [logicalDepthOfChildren, depthOfFields]
    rw [ih (n, t) (List.mem_cons_self _ _) u hfc.2,
      ihr (fun g hg => ih g (List.mem_cons_of_mem _ hg))]

theorem mapArrowType_depth (ts : DataType → String) :
    ∀ d : DataType, ∀ t, mapArrowType ts d = .ok t → logicalDepth t = depth d := by
  apply DataType.induction
  · intro d hc _ t h
    obtain ⟨h1, h2⟩ := mapArrowType_leaf_depth ts d hc t h
    rw [h1, h2]
  · intro v ih t h
    obtain ⟨inner, ht, hv⟩ := mapArrowType_list_ok ts v t h
    subst ht
    simp only [logicalDepth, depth, ih inner hv]
  · intro v ih t h
    obtain ⟨inner, ht, hv⟩ := mapArrowType_large_list_ok ts v t h
    subst ht
    simp only [logicalDepth, depth, ih inner hv]
  · intro v n ih t h
    obtain ⟨inner, ht, hv⟩ := mapArrowType_fixed_size_list_ok ts v n t h
    subst ht
    simp only [logicalDepth, depth, ih inner hv]
  · intro fs ih t h
    obtain ⟨cs, ht, hm⟩ := mapArrowType_struct_ok ts fs t h
    subst ht
    simp only [logicalDepth, depth,
      fields_depth ts fs cs ((mapFields_ok_iff ts fs cs).1 hm) ih]
  · intro fs ih t h
    obtain ⟨cs, ht, hm⟩ := mapArrowType_map_ok ts fs t h
    subst ht
    simp only [logicalDepth, depth,
      fields_depth ts fs cs ((mapFields_ok_iff ts fs cs).1 hm) ih]
  · intro fs ih t h
    obtain ⟨cs, ht, hm⟩ := mapArrowType_dictionary_ok ts fs t h
    subst ht
    simp only [logicalDepth, depth,
      fields_depth ts fs cs ((mapFields_ok_iff ts fs cs).1 hm) ih]
  · intro fs _ t h
    cases h
  · intro fs _ t h
    cases h
  · intro n st _ t h
    cases h

/-- C12: when `mapArrowType` succeeds on `d` with `t`, the nesting depth of
`t` equals the nesting depth of `d`. -/
theorem mapArrowType_preserves_depth (ts : DataType → String) (d : DataType)
    (t : LogicalType) (h : mapArrowType ts d = .ok t) : logicalDepth t = depth d :=
  mapArrowType_depth ts d t h

theorem mapArrowType_preserves_depth_witness :
    logicalDepth (.STRUCT [("a", .LIST (.LIST .INTEGER)), ("b", .MAP [("k", .TINYINT)])]) =
      depth (.STRUCT [("a", .LARGE_LIST (.FIXED_SIZE_LIST .INT32 2)),
                      ("b", .DICTIONARY [("k", .INT8)])]) :=
  mapArrowType_preserves_depth kindName
    (.STRUCT [("a", .LARGE_LIST (.FIXED_SIZE_LIST .INT32 2)), ("b", .DICTIONARY [("k", .INT8)])])
    (.STRUCT [("a", .LIST (.LIST .INTEGER)), ("b", .MAP [("k", .TINYINT)])]) rfl


/-! ## Deep nesting, the rendering, order of failures -/

theorem mapArrowType_nestedList (ts : DataType → String) :
    ∀ n : Nat, mapArrowType ts (nestedList n .INT32) = .ok (nestedLogicalList n .INTEGER)
  | 0 => rfl
  | n + 1 => by
    simp only [nestedList, nestedLogicalList, mapArrowType, mapArrowType_nestedList ts n]

theorem depth_nestedList : ∀ n : Nat, depth (nestedList n .INT32) = n
  | 0 => rfl
  | n + 1 => by
    simp only [nestedList, depth, depth_nestedList n]
    omega

theorem mapArrowType_error_code (ts : DataType → String) (d : DataType) (st : Status)
    (h : mapArrowType ts d = .error st) : st.code = StatusCode.NotImplemented := by
  have hd := mapArrowType_decided ts d
  cases hf : (reachable d).find? isUnsupported with
  | none =>
    rw [hf] at hd
    obtain ⟨t, ht⟩ := hd
    rw [ht] at h
    cases h
  | some u =>
    rw [hf] at hd
    simp only [DecidedBy] at hd
    rw [hd] at h
    cases h
    rfl

theorem mapFields_rendering (ts ts' : DataType → String) (fs : List (String × DataType))
    (ih : ∀ f ∈ fs, mapArrowType ts' f.2 = mapArrowType ts f.2) :
    ∀ acc, mapFields ts' acc fs = mapFields ts acc fs := by
  induction fs with
  | nil => intro acc; rfl
  | cons f rest ihr =>
    intro acc
    obtain ⟨n, t⟩ := f
    simp only [mapFields]
    rw [ih (n, t) (List.mem_cons_self _ _)]
    cases mapArrowType ts t with
    | error st => rfl
    | ok u => exact ihr (fun g hg => ih g (List.mem_cons_of_mem _ hg)) _

theorem mem_reachableOfFields (fs : List (String × DataType)) (f : String × DataType)
    (hf : f ∈ fs) (u : DataType) (hu : u ∈ reachable f.2) : u ∈ reachableOfFields fs := by
  induction fs with
  | nil => cases hf
  | cons g rest ih =>
    obtain ⟨n, t⟩ := g
    simp only [reachableOfFields, List.mem_append]
    rcases List.mem_cons.1 hf with h | h
    · subst h; exact Or.inl hu
    · exact Or.inr (ih h)

/-- The result depends on the rendering only through the textual form of the
unsupported nodes that are reachable in the descriptor. -/
theorem mapArrowType_rendering (ts ts' : DataType → String) :
    ∀ d : DataType, (∀ u ∈ reachable d, isUnsupported u = true → ts' u = ts u) →
      mapArrowType ts' d = mapArrowType ts d := by
  apply DataType.induction
  · intro d hc hu _
    cases d <;> first
      | rfl
      | (simp [isContainer, DataType.id] at hc; done)
      | (simp [isUnsupported, DataType.id] at hu)
  · intro v ih h
    simp only [mapArrowType]
    rw [ih (fun u hu => h u (by simp [reachable, hu]))]
  · intro v ih h
    simp only [mapArrowType]
    rw [ih (fun u hu => h u (by simp [reachable, hu]))]
  · intro v n ih h
    simp only [mapArrowType]
    rw [ih (fun u hu => h u (by simp [reachable, hu]))]
  · intro fs ih h
    simp only [mapArrowType]
    rw [mapFields_rendering ts ts' fs (fun f hf => ih f hf (fun u hu => h u (by
      simp only [reachable, List.mem_cons]
      exact Or.inr (mem_reachableOfFields fs f hf u hu))))]
  · intro fs ih h
    simp only [mapArrowType]
    rw [mapFields_rendering ts ts' fs (fun f hf => ih f hf (fun u hu => h u (by
      simp only [reachable, List.mem_cons]
      exact Or.inr (mem_reachableOfFields fs f hf u hu))))]
  · intro fs ih h
    simp only [mapArrowType]
    rw [mapFields_rendering ts ts' fs (fun f hf => ih f hf (fun u hu => h u (by
      simp only [reachable, List.mem_cons]
      exact Or.inr (mem_reachableOfFields fs f hf u hu))))]
  · intro fs _ h
    simp only [mapArrowType, Status.NotImplemented]
    rw [h _ (mem_reachable_self _) rfl]
  · intro fs _ h
    simp only [mapArrowType, Status.NotImplemented]
    rw [h _ (mem_reachable_self _) rfl]
  · intro n st _ h
    simp only [mapArrowType, Status.NotImplemented]
    rw [h _ (mem_reachable_self _) rfl]

theorem mapFields_first_failure (ts : DataType → String) (pre : List (String × DataType))
    (n : String) (t : DataType) (post : List (String × DataType)) (st : Status)
    (hpre : ∀ f ∈ pre, ∃ u, mapArrowType ts f.2 = .ok u)
    (ht : mapArrowType ts t = .error st) :
    mapFields ts [] (pre ++ (n, t) :: post) = .error st := by
  induction pre with
  | nil =>
    rw [List.nil_append, mapFields_cons, ht]
  | cons f rest ih =>
    obtain ⟨m, s⟩ := f
    obtain ⟨u, hu⟩ := hpre (m, s) (List.mem_cons_self _ _)
    rw [List.cons_append, mapFields_cons, hu]
    simp only []
    rw [ih (fun g hg => hpre g (List.mem_cons_of_mem _ hg))]

theorem first_failure_split (ts : DataType → String) (fs : List (String × DataType))
    (h : ∃ f ∈ fs, ∃ st, mapArrowType ts f.2 = .error st) :
    ∃ pre n t post st, fs = pre ++ (n, t) :: post ∧
      (∀ f ∈ pre, ∃ u, mapArrowType ts f.2 = .ok u) ∧ mapArrowType ts t = .error st := by
  induction fs with
  | nil =>
    obtain ⟨f, hf, _⟩ := h
    cases hf
  | cons g rest ih =>
    obtain ⟨m, s⟩ := g
    cases hs : mapArrowType ts s with
    | error st =>
      exact ⟨[], m, s, rest, st, rfl, fun f hf => absurd hf (List.not_mem_nil _), hs⟩
    | ok u =>
      have hrest : ∃ f ∈ rest, ∃ st, mapArrowType ts f.2 = .error st := by
        obtain ⟨f, hf, st, hst⟩ := h
        rcases List.mem_cons.1 hf with hfe | hfr
        · subst hfe
          rw [hs] at hst
          cases hst
        · exact ⟨f, hfr, st, hst⟩
      obtain ⟨pre, n, t, post, st, hsplit, hpre, ht⟩ := ih hrest
      refine ⟨(m, s) :: pre, n, t, post, st, by rw [hsplit]; rfl, ?_, ht⟩
      intro f hf
      rcases List.mem_cons.1 hf with hfe | hfr
      · subst hfe
        exact ⟨u, hs⟩
      · exact hpre f hfr

/-- C15: when at least one field type of a `STRUCT`, `MAP` or `DICTIONARY`
with fields `fs` fails to map, `fs` is `pre ++ (n, t) :: post` where every
field type of `pre` maps with success and `t` is the first to fail, with
status `st`; the result is exactly `st`, and it stays `st` whatever fields
follow `(n, t)`. -/
theorem mapArrowType_first_failure (ts : DataType → String) (fs : List (String × DataType))
    (h : ∃ f ∈ fs, ∃ st, mapArrowType ts f.2 = .error st) :
    ∃ pre n t post st, fs = pre ++ (n, t) :: post ∧
      (∀ f ∈ pre, ∃ u, mapArrowType ts f.2 = .ok u) ∧
      mapArrowType ts t = .error st ∧
      mapArrowType ts (.STRUCT fs) = .error st ∧
      mapArrowType ts (.MAP fs) = .error st ∧
      mapArrowType ts (.DICTIONARY fs) = .error st ∧
      (∀ post', mapArrowType ts (.STRUCT (pre ++ (n, t) :: post')) = .error st ∧
        mapArrowType ts (.MAP (pre ++ (n, t) :: post')) = .error st ∧
        mapArrowType ts (.DICTIONARY (pre ++ (n, t) :: post')) = .error st) := by
  obtain ⟨pre, n, t, post, st, hsplit, hpre, ht⟩ := first_failure_split ts fs h
  have key : ∀ post', mapArrowType ts (.STRUCT (pre ++ (n, t) :: post')) = .error st ∧
      mapArrowType ts (.MAP (pre ++ (n, t) :: post')) = .error st ∧
      mapArrowType ts (.DICTIONARY (pre ++ (n, t) :: post')) = .error st := by
    intro post'
    simp only [mapArrowType, mapFields_first_failure ts pre n t post' st hpre ht, and_self]
  refine ⟨pre, n, t, post, st, hsplit, hpre, ht, ?_, ?_, ?_, key⟩
  · rw [hsplit]; exact (key post).1
  · rw [hsplit]; exact (key post).2.1
  · rw [hsplit]; exact (key post).2.2

theorem mapArrowType_first_failure_witness :
    mapArrowType kindName
      (.STRUCT [("a", .INT32), ("b", .SPARSE_UNION []), ("c", .EXTENSION "x" .INT8)]) =
        .error { code := StatusCode.NotImplemented,
                 msg := "DuckDB type mapping for: sparse_union" } ∧
    ∃ pre n t post st,
      [("a", DataType.INT32), ("b", .SPARSE_UNION []), ("c", .EXTENSION "x" .INT8)] =
        pre ++ (n, t) :: post ∧
      (∀ f ∈ pre, ∃ u, mapArrowType kindName f.2 = .ok u) ∧
      mapArrowType kindName t = .error st ∧
      mapArrowType kindName
        (.STRUCT [("a", .INT32), ("b", .SPARSE_UNION []), ("c", .EXTENSION "x" .INT8)]) =
          .error st ∧
      mapArrowType kindName
        (.MAP [("a", .INT32), ("b", .SPARSE_UNION []), ("c", .EXTENSION "x" .INT8)]) =
          .error st ∧
      mapArrowType kindName
        (.DICTIONARY [("a", .INT32), ("b", .SPARSE_UNION []), ("c", .EXTENSION "x" .INT8)]) =
          .error st ∧
      (∀ post', mapArrowType kindName (.STRUCT (pre ++ (n, t) :: post')) = .error st ∧
        mapArrowType kindName (.MAP (pre ++ (n, t) :: post')) = .error st ∧
        mapArrowType kindName (.DICTIONARY (pre ++ (n, t) :: post')) = .error st) :=
  ⟨rfl, mapArrowType_first_failure kindName
    [("a", .INT32), ("b", .SPARSE_UNION []), ("c", .EXTENSION "x" .INT8)]
    ⟨("c", .EXTENSION "x" .INT8), by simp, _, rfl⟩⟩


/-! ## Termination -/

theorem mem_descendants_self (d : DataType) : d ∈ descendants d := by
  cases d <;> simp [descendants]

theorem field_below_fields (fs : List (String × DataType)) (f : String × DataType)
    (hf : f ∈ fs) :
    (∀ u ∈ descendants f.2, u ∈ descendantsOfFields fs) ∧
    (descendants f.2).length ≤ (descendantsOfFields fs).length ∧
    depth f.2 ≤ depthOfFields fs := by
  induction fs with
  | nil => cases hf
  | cons g rest ih =>
    obtain ⟨n, t⟩ := g
    simp only [descendantsOfFields, depthOfFields, List.mem_append, List.length_append]
    rcases List.mem_cons.1 hf with h | h
    · subst h
      exact ⟨fun u hu => Or.inl hu, Nat.le_add_right _ _, le_max_left _ _⟩
    · obtain ⟨h1, h2, h3⟩ := ih h
      exact ⟨fun u hu => Or.inr (h1 u hu), by omega, le_trans h3 (le_max_right _ _)⟩

theorem mapFieldsFuel_enough (ts : DataType → String) (fuel : Nat)
    (fs : List (String × DataType))
    (ih : ∀ f ∈ fs, mapArrowTypeFuel ts fuel f.2 = some (mapArrowType ts f.2)) :
    ∀ acc, mapFieldsFuel ts fuel acc fs = some (mapFields ts acc fs) := by
  induction fs with
  | nil => intro acc; simp only [mapFieldsFuel, mapFields]
  | cons f rest ihr =>
    intro acc
    obtain ⟨n, t⟩ := f
    simp only [mapFieldsFuel, mapFields]
    rw [ih (n, t) (List.mem_cons_self _ _)]
    cases mapArrowType ts t with
    | error st => rfl
    | ok u => exact ihr (fun g hg => ih g (List.mem_cons_of_mem _ hg)) _

theorem mapArrowTypeFuel_enough (ts : DataType → String) :
    ∀ d : DataType, ∀ fuel, depth d < fuel →
      mapArrowTypeFuel ts fuel d = some (mapArrowType ts d) := by
  apply DataType.induction
  · intro d hc _ fuel hfuel
    obtain ⟨k, rfl⟩ : ∃ k, fuel = k + 1 := ⟨fuel - 1, by omega⟩
    cases d <;> first
      | (simp [isContainer, DataType.id] at hc; done)
      | (simp only [mapArrowTypeFuel])
  · intro v ih fuel hfuel
    obtain ⟨k, rfl⟩ : ∃ k, fuel = k + 1 := ⟨fuel - 1, by omega⟩
    simp only [depth] at hfuel
    simp only [mapArrowTypeFuel, mapArrowType]
    rw [ih k (by omega)]
    cases mapArrowType ts v <;> rfl
  · intro v ih fuel hfuel
    obtain ⟨k, rfl⟩ : ∃ k, fuel = k + 1 := ⟨fuel - 1, by omega⟩
    simp only [depth] at hfuel
    simp only [mapArrowTypeFuel, mapArrowType]
    rw [ih k (by omega)]
    cases mapArrowType ts v <;> rfl
  · intro v n ih fuel hfuel
    obtain ⟨k, rfl⟩ : ∃ k, fuel = k + 1 := ⟨fuel - 1, by omega⟩
    simp only [depth] at hfuel
    simp only [mapArrowTypeFuel, mapArrowType]
    rw [ih k (by omega)]
    cases mapArrowType ts v <;> rfl
  · intro fs ih fuel hfuel
    obtain ⟨k, rfl⟩ : ∃ k, fuel = k + 1 := ⟨fuel - 1, by omega⟩
    simp only [depth] at hfuel
    simp only [mapArrowTypeFuel, mapArrowType]
    rw [mapFieldsFuel_enough ts k fs (fun f hf => ih f hf k (by
      have := (field_below_fields fs f hf).2.2
      omega))]
    cases mapFields ts [] fs <;> rfl
  · intro fs ih fuel hfuel
    obtain ⟨k, rfl⟩ : ∃ k, fuel = k + 1 := ⟨fuel - 1, by omega⟩
    simp only [depth] at hfuel
    simp only [mapArrowTypeFuel, mapArrowType]
    rw [mapFieldsFuel_enough ts k fs (fun f hf => ih f hf k (by
      have := (field_below_fields fs f hf).2.2
      omega))]
    cases mapFields ts [] fs <;> rfl
  · intro fs ih fuel hfuel
    obtain ⟨k, rfl⟩ : ∃ k, fuel = k + 1 := ⟨fuel - 1, by omega⟩
    simp only [depth] at hfuel
    simp only [mapArrowTypeFuel, mapArrowType]
    rw [mapFieldsFuel_enough ts k fs (fun f hf => ih f hf k (by
      have := (field_below_fields fs f hf).2.2
      omega))]
    cases mapFields ts [] fs <;> rfl
  · intro fs _ fuel hfuel
    obtain ⟨k, rfl⟩ : ∃ k, fuel = k + 1 := ⟨fuel - 1, by omega⟩
    simp only [mapArrowTypeFuel]
  · intro fs _ fuel hfuel
    obtain ⟨k, rfl⟩ : ∃ k, fuel = k + 1 := ⟨fuel - 1, by omega⟩
    simp only [mapArrowTypeFuel]
  · intro n st _ fuel hfuel
    obtain ⟨k, rfl⟩ : ∃ k, fuel = k + 1 := ⟨fuel - 1, by omega⟩
    simp only [mapArrowTypeFuel]


theorem callArguments_below (d c : DataType) (hc : c ∈ callArguments d) :
    c ∈ descendants d ∧ (descendants c).length < (descendants d).length ∧
      depth c < depth d := by
  cases d <;> simp only [callArguments, List.mem_singleton, List.mem_map, List.not_mem_nil] at hc
  case LIST v =>
    subst hc
    simp only [descendants, depth, List.mem_cons, List.length_cons]
    exact ⟨Or.inr (mem_descendants_self c), by omega, by omega⟩
  case LARGE_LIST v =>
    subst hc
    simp only [descendants, depth, List.mem_cons, List.length_cons]
    exact ⟨Or.inr (mem_descendants_self c), by omega, by omega⟩
  case FIXED_SIZE_LIST v n =>
    subst hc
    simp only [descendants, depth, List.mem_cons, List.length_cons]
    exact ⟨Or.inr (mem_descendants_self c), by omega, by omega⟩
  case STRUCT fs =>
    obtain ⟨f, hf, rfl⟩ := hc
    obtain ⟨h1, h2, h3⟩ := field_below_fields fs f hf
    simp only [descendants, depth, List.mem_cons, List.length_cons]
    exact ⟨Or.inr (h1 _ (mem_descendants_self _)), by omega, by omega⟩
  case MAP fs =>
    obtain ⟨f, hf, rfl⟩ := hc
    obtain ⟨h1, h2, h3⟩ := field_below_fields fs f hf
    simp only [descendants, depth, List.mem_cons, List.length_cons]
    exact ⟨Or.inr (h1 _ (mem_descendants_self _)), by omega, by omega⟩
  case DICTIONARY fs =>
    obtain ⟨f, hf, rfl⟩ := hc
    obtain ⟨h1, h2, h3⟩ := field_below_fields fs f hf
    simp only [descendants, depth, List.mem_cons, List.length_cons]
    exact ⟨Or.inr (h1 _ (mem_descendants_self _)), by omega, by omega⟩

/-- C16: `mapArrowType` returns on every descriptor, and with no more nested
calls than the nesting depth allows: run with a bound `fuel` on the calls open
at a time, it returns the result of `mapArrowType` whenever `fuel` exceeds the
nesting depth.  Every descriptor it calls itself on is a strict part of the
current one, with fewer nodes and a smaller nesting depth. -/
theorem mapArrowType_terminates (ts : DataType → String) (d : DataType) :
    (∀ fuel, depth d < fuel → mapArrowTypeFuel ts fuel d = some (mapArrowType ts d)) ∧
    (∀ c ∈ callArguments d,
      c ∈ descendants d ∧ (descendants c).length < (descendants d).length ∧
        depth c < depth d) :=
  ⟨mapArrowTypeFuel_enough ts d, callArguments_below d⟩

theorem mapArrowType_terminates_witness :
    mapArrowTypeFuel kindName 4 (.STRUCT [("a", .LIST .INT32), ("b", .LARGE_LIST (.LIST .INT8))]) =
      some (mapArrowType kindName
        (.STRUCT [("a", .LIST .INT32), ("b", .LARGE_LIST (.LIST .INT8))])) ∧
    (DataType.LARGE_LIST (.LIST .INT8) ∈
        descendants (.STRUCT [("a", .LIST .INT32), ("b", .LARGE_LIST (.LIST .INT8))]) ∧
      (descendants (.LARGE_LIST (.LIST .INT8))).length <
        (descendants (.STRUCT [("a", .LIST .INT32), ("b", .LARGE_LIST (.LIST .INT8))])).length ∧
      depth (.LARGE_LIST (.LIST .INT8)) <
        depth (.STRUCT [("a", .LIST .INT32), ("b", .LARGE_LIST (.LIST .INT8))])) :=
  ⟨(mapArrowType_terminates kindName
      (.STRUCT [("a", .LIST .INT32), ("b", .LARGE_LIST (.LIST .INT8))])).1 4 (by decide),
   (mapArrowType_terminates kindName
      (.STRUCT [("a", .LIST .INT32), ("b", .LARGE_LIST (.LIST .INT8))])).2
      (.LARGE_LIST (.LIST .INT8)) (by simp [callArguments])⟩

/-! ## Exact failure, and where `INVALID` comes from -/

/-- C17: `mapArrowType` fails on `d` exactly when `d` is, or contains at a
position reached through list value types and struct / map / dictionary field
types, a node of kind `EXTENSION`, `SPARSE_UNION` or `DENSE_UNION`; what lies
inside such a node plays no part, so this is also exactly when `d` has such a
node anywhere. -/
theorem mapArrowType_fails_iff (ts : DataType → String) (d : DataType) :
    ((∃ st, mapArrowType ts d = .error st) ↔ ∃ u ∈ reachable d, isUnsupported u = true) ∧
    ((∃ st, mapArrowType ts d = .error st) ↔ ∃ u ∈ descendants d, isUnsupported u = true) := by
  have h1 : (∃ st, mapArrowType ts d = .error st) → ∃ u ∈ reachable d, isUnsupported u = true := by
    rintro ⟨st, hst⟩
    have hd := mapArrowType_decided ts d
    cases hf : (reachable d).find? isUnsupported with
    | none =>
      rw [hf] at hd
      obtain ⟨t, ht⟩ := hd
      rw [ht] at hst
      cases hst
    | some u => exact ⟨u, List.mem_of_find?_eq_some hf, List.find?_some hf⟩
  have h2 : (∃ u ∈ reachable d, isUnsupported u = true) → ∃ st, mapArrowType ts d = .error st := by
    intro h
    obtain ⟨u, _, _, hu⟩ := mapArrowType_error_of_unsupported ts d h
    exact ⟨_, hu⟩
  refine ⟨⟨h1, h2⟩, ⟨fun h => ?_, fun h => h2 (unsupported_reachable_of_descendant d h)⟩⟩
  obtain ⟨u, hu, hun⟩ := h1 h
  exact ⟨u, reachable_subset_descendants d u hu, hun⟩

theorem mapArrowType_fails_iff_witness :
    (∃ st, mapArrowType kindName (.MAP [("k", .STRING), ("v", .LIST (.EXTENSION "e" .NA))]) =
      .error st) ∧
    ∃ t, mapArrowType kindName (.MAP [("k", .STRING), ("v", .LIST .NA)]) = .ok t :=
  ⟨(mapArrowType_fails_iff kindName
      (.MAP [("k", .STRING), ("v", .LIST (.EXTENSION "e" .NA))])).1.2
      ⟨.EXTENSION "e" .NA, by simp [reachable, reachableOfFields], rfl⟩,
   ⟨_, rfl⟩⟩


theorem leaf_invalid_iff (ts : DataType → String) (d : DataType)
    (hc : isContainer d = false) (t : LogicalType) (h : mapArrowType ts d = .ok t) :
    containsInvalid t = true ↔ ∃ u ∈ descendants d, isSentinel u = true := by
  cases d <;> simp only [mapArrowType] at h <;>
    first
    | (simp [isContainer, DataType.id] at hc; done)
    | (cases h; simp [containsInvalid, descendants, isSentinel, DataType.id])
    | cases h

theorem children_invalid_iff (ts : DataType → String) (fs : List (String × DataType))
    (cs : List (String × LogicalType)) (hf : List.Forall₂ (FieldMapped ts) fs cs)
    (ih : ∀ f ∈ fs, ∀ t, mapArrowType ts f.2 = .ok t →
      (containsInvalid t = true ↔ ∃ u ∈ descendants f.2, isSentinel u = true)) :
    childrenContainInvalid cs = true ↔ ∃ u ∈ descendantsOfFields fs, isSentinel u = true := by
  induction hf with
  | nil => simp [childrenContainInvalid, descendantsOfFields]
  | @cons f c fs0 cs0 hfc _ ihr =>
    obtain ⟨n, t⟩ := f
    obtain ⟨m, u⟩ := c
    have h1 := ih (n, t) (List.mem_cons_self _ _) u hfc.2
    have h2 := ihr (fun g hg => ih g (List.mem_cons_of_mem _ hg))
    simp only [childrenContainInvalid, descendantsOfFields, Bool.or_eq_true, List.mem_append,
      or_and_right, exists_or]
    rw [h1, h2]

theorem mapArrowType_invalid_iff (ts : DataType → String) :
    ∀ d : DataType, ∀ t, mapArrowType ts d = .ok t →
      (containsInvalid t = true ↔ ∃ u ∈ descendants d, isSentinel u = true) := by
  apply DataType.induction
  · intro d hc _ t h
    exact leaf_invalid_iff ts d hc t h
  · intro v ih t h
    obtain ⟨inner, ht, hv⟩ := mapArrowType_list_ok ts v t h
    subst ht
    simp [containsInvalid, descendants, isSentinel, DataType.id, ih inner hv]
  · intro v ih t h
    obtain ⟨inner, ht, hv⟩ := mapArrowType_large_list_ok ts v t h
    subst ht
    simp [containsInvalid, descendants, isSentinel, DataType.id, ih inner hv]
  · intro v n ih t h
    obtain ⟨inner, ht, hv⟩ := mapArrowType_fixed_size_list_ok ts v n t h
    subst ht
    simp [containsInvalid, descendants, isSentinel, DataType.id, ih inner hv]
  · intro fs ih t h
    obtain ⟨cs, ht, hm⟩ := mapArrowType_struct_ok ts fs t h
    subst ht
    simp [containsInvalid, descendants, isSentinel, DataType.id,
      children_invalid_iff ts fs cs ((mapFields_ok_iff ts fs cs).1 hm) ih]
  · intro fs ih t h
    obtain ⟨cs, ht, hm⟩ := mapArrowType_map_ok ts fs t h
    subst ht
    simp [containsInvalid, descendants, isSentinel, DataType.id,
      children_invalid_iff ts fs cs ((mapFields_ok_iff ts fs cs).1 hm) ih]
  · intro fs ih t h
    obtain ⟨cs, ht, hm⟩ := mapArrowType_dictionary_ok ts fs t h
    subst ht
    simp [containsInvalid, descendants, isSentinel, DataType.id,
      children_invalid_iff ts fs cs ((mapFields_ok_iff ts fs cs).1 hm) ih]
  · intro fs _ t h
    cases h
  · intro fs _ t h
    cases h
  · intro n st _ t h
    cases h

theorem mapArrowType_sentinel (ts : DataType → String) (d : DataType)
    (h : isSentinel d = true) : mapArrowType ts d = .ok .INVALID := by
  cases d <;> first | rfl | (simp [isSentinel, DataType.id] at h)

/-- C18: when `mapArrowType` succeeds on `d` with `t`, `INVALID` occurs in `t`
exactly when `d` has a node of kind `NA` or `MAX_ID`; so without such a node
`INVALID` occurs nowhere in `t`.  A sentinel below a list or a struct causes
no error: it is mapped to `INVALID`, the list to `LIST(INVALID)`, and in the
fields of a struct or map that is mapped with success, the field at the index
of a sentinel has type `INVALID`. -/
theorem invalid_only_from_sentinels (ts : DataType → String) (d : DataType)
    (fs : List (String × DataType)) :
    (∀ t, mapArrowType ts d = .ok t →
      (containsInvalid t = true ↔ ∃ u ∈ descendants d, isSentinel u = true)) ∧
    (∀ t, mapArrowType ts d = .ok t → (∀ u ∈ descendants d, isSentinel u = false) →
      containsInvalid t = false) ∧
    (isSentinel d = true →
      mapArrowType ts d = .ok .INVALID ∧
      mapArrowType ts (.LIST d) = .ok (.LIST .INVALID) ∧
      mapArrowType ts (.LARGE_LIST d) = .ok (.LIST .INVALID) ∧
      (∀ n, mapArrowType ts (.FIXED_SIZE_LIST d n) = .ok (.LIST .INVALID)) ∧
      (∀ name, mapArrowType ts (.STRUCT [(name, d)]) = .ok (.STRUCT [(name, .INVALID)]))) ∧
    (∀ cs, FieldsImage ts fs cs →
      ∀ (i : Nat) (h1 : i < fs.length) (h2 : i < cs.length),
        isSentinel (fs.get ⟨i, h1⟩).2 = true → (cs.get ⟨i, h2⟩).2 = .INVALID) := by
  refine ⟨mapArrowType_invalid_iff ts d, ?_, ?_, ?_⟩
  · intro t h hno
    cases hci : containsInvalid t with
    | false => rfl
    | true =>
      obtain ⟨u, hu, hs⟩ := (mapArrowType_invalid_iff ts d t h).1 hci
      rw [hno u hu] at hs
      cases hs
  · intro h
    have hd := mapArrowType_sentinel ts d h
    refine ⟨hd, ?_, ?_, ?_, ?_⟩
    · simp only [mapArrowType, hd]
    · simp only [mapArrowType, hd]
    · intro n
      simp only [mapArrowType, hd]
    · intro name
      simp only [mapArrowType, mapFields, hd, List.nil_append]
  · intro cs hcs i h1 h2 hs
    have himg := (hcs.2 i h1 h2).2
    rw [mapArrowType_sentinel ts _ hs] at himg
    exact (Except.ok.inj himg).symm

theorem invalid_only_from_sentinels_witness :
    containsInvalid (.STRUCT [("a", .LIST .INTEGER), ("b", .DECIMAL 38 10)]) = false ∧
    mapArrowType kindName (.LIST .NA) = .ok (.LIST .INVALID) ∧
    mapArrowType kindName (.STRUCT [("x", .MAX_ID)]) = .ok (.STRUCT [("x", .INVALID)]) :=
  ⟨(invalid_only_from_sentinels kindName
      (.STRUCT [("a", .LIST .INT32), ("b", .DECIMAL128 38 10)]) []).2.1
      (.STRUCT [("a", .LIST .INTEGER), ("b", .DECIMAL 38 10)]) rfl
      (by simp [descendants, descendantsOfFields, isSentinel, DataType.id]),
   ((invalid_only_from_sentinels kindName .NA []).2.2.1 rfl).2.1,
   ((invalid_only_from_sentinels kindName .MAX_ID []).2.2.1 rfl).2.2.2.2 "x"⟩


/-! ## No depth guard -/

theorem mapArrowType_error_unsupported (ts : DataType → String) (d : DataType) (st : Status)
    (h : mapArrowType ts d = .error st) :
    ∃ u ∈ reachable d, isUnsupported u = true ∧
      st = { code := StatusCode.NotImplemented, msg := "DuckDB type mapping for: " ++ ts u } := by
  have hd := mapArrowType_decided ts d
  cases hf : (reachable d).find? isUnsupported with
  | none =>
    rw [hf] at hd
    obtain ⟨t, ht⟩ := hd
    rw [ht] at h
    cases h
  | some u =>
    rw [hf] at hd
    simp only [DecidedBy] at hd
    rw [hd] at h
    cases h
    exact ⟨u, List.mem_of_find?_eq_some hf, List.find?_some hf, rfl⟩

theorem mapArrowTypeFuel_zero (ts : DataType → String) (d : DataType) :
    mapArrowTypeFuel ts 0 d = none := by
  cases d <;> simp only [mapArrowTypeFuel]

theorem mapFieldsFuel_sound (ts : DataType → String) (fuel : Nat)
    (fs : List (String × DataType))
    (ih : ∀ f ∈ fs, ∀ r, mapArrowTypeFuel ts fuel f.2 = some r → r = mapArrowType ts f.2) :
    ∀ acc r, mapFieldsFuel ts fuel acc fs = some r → r = mapFields ts acc fs := by
  induction fs with
  | nil =>
    intro acc r h
    simp only [mapFieldsFuel, Option.some.injEq] at h
    simp only [mapFields, h]
  | cons f rest ihr =>
    intro acc r h
    obtain ⟨n, t⟩ := f
    simp only [mapFieldsFuel] at h
    cases ht : mapArrowTypeFuel ts fuel t with
    | none => rw [ht] at h; cases h
    | some r0 =>
      rw [ht] at h
      have h0 := ih (n, t) (List.mem_cons_self _ _) r0 ht
      simp only at h0
      simp only [mapFields, ← h0]
      cases r0 with
      | error st =>
        simp only [Option.some.injEq] at h
        exact h.symm
      | ok u =>
        exact ihr (fun g hg => ih g (List.mem_cons_of_mem _ hg)) _ r h

theorem mapArrowTypeFuel_sound (ts : DataType → String) :
    ∀ d : DataType, ∀ fuel r, mapArrowTypeFuel ts fuel d = some r → r = mapArrowType ts d := by
  apply DataType.induction
  · intro d hc _ fuel r h
    cases fuel with
    | zero => rw [mapArrowTypeFuel_zero] at h; cases h
    | succ k =>
      cases d <;> first
        | (simp [isContainer, DataType.id] at hc; done)
        | (simp only [mapArrowTypeFuel, Option.some.injEq] at h; exact h.symm)
  · intro v ih fuel r h
    cases fuel with
    | zero => rw [mapArrowTypeFuel_zero] at h; cases h
    | succ k =>
      simp only [mapArrowTypeFuel] at h
      cases hv : mapArrowTypeFuel ts k v with
      | none => rw [hv] at h; cases h
      | some r0 =>
        rw [hv] at h
        have h0 := ih k r0 hv
        simp only [mapArrowType, ← h0]
        cases r0 <;> (simp only [Option.some.injEq] at h; exact h.symm)
  · intro v ih fuel r h
    cases fuel with
    | zero => rw [mapArrowTypeFuel_zero] at h; cases h
    | succ k =>
      simp only [mapArrowTypeFuel] at h
      cases hv : mapArrowTypeFuel ts k v with
      | none => rw [hv] at h; cases h
      | some r0 =>
        rw [hv] at h
        have h0 := ih k r0 hv
        simp only [mapArrowType, ← h0]
        cases r0 <;> (simp only [Option.some.injEq] at h; exact h.symm)
  · intro v n ih fuel r h
    cases fuel with
    | zero => rw [mapArrowTypeFuel_zero] at h; cases h
    | succ k =>
      simp only [mapArrowTypeFuel] at h
      cases hv : mapArrowTypeFuel ts k v with
      | none => rw [hv] at h; cases h
      | some r0 =>
        rw [hv] at h
        have h0 := ih k r0 hv
        simp only [mapArrowType, ← h0]
        cases r0 <;> (simp only [Option.some.injEq] at h; exact h.symm)
  · intro fs ih fuel r h
    cases fuel with
    | zero => rw [mapArrowTypeFuel_zero] at h; cases h
    | succ k =>
      simp only [mapArrowTypeFuel] at h
      cases hv : mapFieldsFuel ts k [] fs with
      | none => rw [hv] at h; cases h
      | some r0 =>
        rw [hv] at h
        have h0 := mapFieldsFuel_sound ts k fs (fun f hf => ih f hf k) [] r0 hv
        simp only [mapArrowType, ← h0]
        cases r0 <;> (simp only [Option.some.injEq] at h; exact h.symm)
  · intro fs ih fuel r h
    cases fuel with
    | zero => rw [mapArrowTypeFuel_zero] at h; cases h
    | succ k =>
      simp only [mapArrowTypeFuel] at h
      cases hv : mapFieldsFuel ts k [] fs with
      | none => rw [hv] at h; cases h
      | some r0 =>
        rw [hv] at h
        have h0 := mapFieldsFuel_sound ts k fs (fun f hf => ih f hf k) [] r0 hv
        simp only [mapArrowType, ← h0]
        cases r0 <;> (simp only [Option.some.injEq] at h; exact h.symm)
  · intro fs ih fuel r h
    cases fuel with
    | zero => rw [mapArrowTypeFuel_zero] at h; cases h
    | succ k =>
      simp only [mapArrowTypeFuel] at h
      cases hv : mapFieldsFuel ts k [] fs with
      | none => rw [hv] at h; cases h
      | some r0 =>
        rw [hv] at h
        have h0 := mapFieldsFuel_sound ts k fs (fun f hf => ih f hf k) [] r0 hv
        simp only [mapArrowType, ← h0]
        cases r0 <;> (simp only [Option.some.injEq] at h; exact h.symm)
  · intro fs _ fuel r h
    cases fuel with
    | zero => rw [mapArrowTypeFuel_zero] at h; cases h
    | succ k =>
      simp only [mapArrowTypeFuel, Option.some.injEq] at h
      exact h.symm
  · intro fs _ fuel r h
    cases fuel with
    | zero => rw [mapArrowTypeFuel_zero] at h; cases h
    | succ k =>
      simp only [mapArrowTypeFuel, Option.some.injEq] at h
      exact h.symm
  · intro n st _ fuel r h
    cases fuel with
    | zero => rw [mapArrowTypeFuel_zero] at h; cases h
    | succ k =>
      simp only [mapArrowTypeFuel, Option.some.injEq] at h
      exact h.symm


theorem mapArrowTypeFuel_nestedList_none (ts : DataType → String) :
    ∀ n fuel : Nat, fuel ≤ n → mapArrowTypeFuel ts fuel (nestedList n .INT32) = none
  | 0, fuel, h => by
    obtain rfl : fuel = 0 := by omega
    exact mapArrowTypeFuel_zero ts _
  | n + 1, 0, _ => mapArrowTypeFuel_zero ts _
  | n + 1, k + 1, h => by
    simp only [nestedList, mapArrowTypeFuel]
    rw [mapArrowTypeFuel_nestedList_none ts n k (by omega)]

/-- C13 as stated fails: there is no bound on the nesting depth past which
`mapArrowType` fails.  `LIST` applied a hundred times to `INT32` is mapped
with success, and so is a descriptor deeper than any given `N`; under a bound
on the nested calls the mapping of that list either does not return or
returns the success, never an error. -/
theorem no_depth_guard :
    depth (nestedList 100 .INT32) = 100 ∧
    mapArrowType kindName (nestedList 100 .INT32) = .ok (nestedLogicalList 100 .INTEGER) ∧
    (¬ ∃ N : Nat, ∀ d : DataType, N < depth d → ∃ st, mapArrowType kindName d = .error st) ∧
    (∀ fuel st, mapArrowTypeFuel kindName fuel (nestedList 100 .INT32) ≠ some (.error st)) := by
  refine ⟨depth_nestedList 100, mapArrowType_nestedList kindName 100, ?_, ?_⟩
  · rintro ⟨N, hN⟩
    obtain ⟨st, hst⟩ := hN (nestedList (N + 1) .INT32) (by rw [depth_nestedList]; omega)
    rw [mapArrowType_nestedList] at hst
    cases hst
  · intro fuel st h
    have hs := mapArrowTypeFuel_sound kindName _ fuel _ h
    rw [mapArrowType_nestedList] at hs
    cases hs

/-- C13 (amended): `mapArrowType` has no depth guard and no error for deep
nesting.  For every `n`, `LIST` applied `n` times to `INT32`, of nesting depth
`n`, is mapped with success to `LIST` applied `n` times to `INTEGER`: with
room for more than `n` nested calls the bounded run returns that success, with
room for `n` or fewer it does not return, and it never reports an error.
Every status `mapArrowType` fails with, bounded or not, is the NotImplemented
status of an unsupported node reachable in the descriptor, its message built
from the textual form of that node. -/
theorem mapArrowType_no_depth_limit (ts : DataType → String) (n : Nat) :
    depth (nestedList n .INT32) = n ∧
    mapArrowType ts (nestedList n .INT32) = .ok (nestedLogicalList n .INTEGER) ∧
    (∀ fuel, n < fuel →
      mapArrowTypeFuel ts fuel (nestedList n .INT32) =
        some (.ok (nestedLogicalList n .INTEGER))) ∧
    (∀ fuel, fuel ≤ n → mapArrowTypeFuel ts fuel (nestedList n .INT32) = none) ∧
    (∀ (d : DataType) (st : Status), mapArrowType ts d = .error st →
      ∃ u ∈ reachable d, isUnsupported u = true ∧
        st = { code := StatusCode.NotImplemented,
               msg := "DuckDB type mapping for: " ++ ts u }) ∧
    (∀ (fuel : Nat) (d : DataType) (st : Status),
      mapArrowTypeFuel ts fuel d = some (.error st) →
      ∃ u ∈ reachable d, isUnsupported u = true ∧
        st = { code := StatusCode.NotImplemented,
               msg := "DuckDB type mapping for: " ++ ts u }) := by
  refine ⟨depth_nestedList n, mapArrowType_nestedList ts n, ?_, ?_,
    mapArrowType_error_unsupported ts, ?_⟩
  · intro fuel hfuel
    rw [mapArrowTypeFuel_enough ts _ fuel (by rw [depth_nestedList]; exact hfuel),
      mapArrowType_nestedList]
  · exact mapArrowTypeFuel_nestedList_none ts n
  · intro fuel d st h
    exact mapArrowType_error_unsupported ts d st (mapArrowTypeFuel_sound ts d fuel _ h).symm

theorem mapArrowType_no_depth_limit_witness :
    mapArrowTypeFuel kindName 4 (nestedList 3 .INT32) =
      some (.ok (.LIST (.LIST (.LIST .INTEGER)))) ∧
    mapArrowTypeFuel kindName 3 (nestedList 3 .INT32) = none ∧
    (∃ u ∈ reachable (.LIST (.DENSE_UNION [("a", .INT32)])), isUnsupported u = true ∧
      unsupportedStatus kindName (.DENSE_UNION [("a", .INT32)]) =
        { code := StatusCode.NotImplemented,
          msg := "DuckDB type mapping for: " ++ kindName u }) :=
  ⟨(mapArrowType_no_depth_limit kindName 3).2.2.1 4 (by decide),
   (mapArrowType_no_depth_limit kindName 3).2.2.2.1 3 (by decide),
   (mapArrowType_no_depth_limit kindName 3).2.2.2.2.1
      (.LIST (.DENSE_UNION [("a", .INT32)]))
      (unsupportedStatus kindName (.DENSE_UNION [("a", .INT32)])) rfl⟩

end web
end duckdb
